import Mathlib

/-!
Verification of the comment-attachment engine (`src/language-js/comments.js`).

This file gives a shallow embedding of the comment-attachment handler chains
of the pretty-printer and proves the frozen claims about them.

Modelling conventions:

* Syntax-tree nodes are held in an arena addressed by natural-number index
  (`Arena := Nat → NodeData`); the design notes of the specification (§9)
  recommend exactly this representation.  JavaScript reference identity
  (`===`) between nodes becomes equality of indices, and an absent node
  (`undefined`/`null`) becomes `none : Option Nat`.
* In the JavaScript source a node's `body` field holds either a child node
  (loop/class/catch bodies) or a list of statements (program/block/class
  bodies).  The embedding splits this dynamic field into `bodyNode` and
  `bodyList`.
* Handlers that would raise a `TypeError` (dereferencing an absent node)
  return `none`; a normal return of the source's `true`/`false` becomes
  `some r` with `r.claimed` set accordingly.  Besides appends of a comment
  to a node's leading/trailing/dangling list (`Attachment`), handlers can
  set ignore flags; those side effects are recorded as `Effect`s.
* Helper functions of the repository that live outside the provided source
  file (`common/util.js`, `utils/index.js`, `loc.js`) are modelled from the
  specification; each such definition carries a doc comment saying so.
-/

/-- A comment token: byte range, line range, kind tag and raw text
(specification §3); `unignore` is the mutable flag set by ignore handling. -/
structure Comment where
  ctype : String
  value : String
  startPos : Nat
  endPos : Nat
  startLine : Nat
  endLine : Nat
  unignore : Bool := false
deriving Repr, DecidableEq

/-- The data of one syntax-tree node.  Fields mirror the properties the
handler chains read; absent properties are `none`/`[]`.  The source's
dynamic `body` property is split into `bodyNode` (a child node) and
`bodyList` (a statement/member list). -/
structure NodeData where
  type_ : String := ""
  startPos : Nat := 0
  endPos : Nat := 0
  startLine : Nat := 0
  consequent : Option Nat := none
  alternate : Option Nat := none
  test : Option Nat := none
  finalizer : Option Nat := none
  bodyNode : Option Nat := none
  bodyList : Option (List Nat) := none
  properties : Option (List Nat) := none
  key : Option Nat := none
  value : Option Nat := none
  left : Option Nat := none
  callee : Option Nat := none
  superClass : Option Nat := none
  id_ : Option Nat := none
  typeParameters : Option Nat := none
  label : Option Nat := none
  name : Option Nat := none
  constraint : Option Nat := none
  implements_ : Option (List Nat) := none
  extends_ : Option (List Nat) := none
  mixins : Option (List Nat) := none
  arguments : List Nat := []
  params : List Nat := []
  decorators : List Nat := []
  types : List Nat := []
  directives : List Nat := []
  shorthand : Bool := false
deriving Repr, DecidableEq

/-- The arena of nodes: every index resolves to node data
(specification §9: "an arena of nodes addressed by index"). -/
def Arena : Type := Nat → NodeData

/-- Modelled from the spec: the source text together with the external
whitespace/comment-skipping query of `common/util.js` (not part of the
provided source).  `nextIdx p` is the index of the first character at or
after position `p` that is neither whitespace nor part of a comment;
`hasNewlineAfter p` is the external `hasNewline(text, p)` query. -/
structure SourceText where
  chars : List Char
  nextIdx : Nat → Nat
  hasNewlineAfter : Nat → Bool

/-- The configuration value carried by the resolved comment context
(specification §6): a small set of named options; the one relevant here is
the cuddled-else control. -/
structure Config where
  breakBeforeElse : Bool := false
deriving Repr, DecidableEq

/-- Modelled from the spec: the module-level `options` object obtained by
`require("./options.js")` at the top of the source file (that module is not
part of the provided source).  The cuddled-else handler reads
`options.breakBeforeElse` from it. -/
structure GlobalOptions where
  breakBeforeElse : Bool := false
deriving Repr, DecidableEq

/-- The resolved comment context handed to every handler
(`CommentContext` in the source). -/
structure Ctx where
  comment : Comment
  precedingNode : Option Nat := none
  enclosingNode : Option Nat := none
  followingNode : Option Nat := none
  tree : Arena
  text : SourceText
  options : Config := {}
  ast : Nat := 0
  isLastComment : Bool := false

/-- One committed append of the comment to a node's comment list:
`addLeadingComment`, `addTrailingComment` or `addDanglingComment` (the
latter with its optional marker). -/
inductive Attachment where
  | leading (node : Nat)
  | trailing (node : Nat)
  | dangling (node : Nat) (marker : Option String)
deriving Repr, DecidableEq

/-- A side effect other than an attachment append: setting
`node.prettierIgnore` or `comment.unignore`. -/
inductive Effect where
  | prettierIgnoreOn (node : Nat)
  | unignoreComment
deriving Repr, DecidableEq

/-- The outcome of one handler call that did not raise: the boolean the
handler returned, the attachment appends it committed, and its flag
side effects, in order. -/
structure HRes where
  claimed : Bool
  atts : List Attachment
  effs : List Effect
deriving Repr, DecidableEq

/-- JavaScript `charAt`: the one-character string at an index, `""` when
out of range. -/
def charAtStr (cs : List Char) (i : Nat) : String :=
  match cs.drop i with
  | [] => ""
  | c :: _ => String.mk [c]

/-- JavaScript `text.slice(i, i + n)` as a string. -/
def sliceStr (cs : List Char) (i n : Nat) : String :=
  String.mk ((cs.drop i).take n)

/-- Modelled from the spec: `getNextNonSpaceNonCommentCharacter` of
`common/util.js` — the character at the skip query's answer. -/
def getNextNonSpaceNonCommentCharacter (st : SourceText) (pos : Nat) : String :=
  charAtStr st.chars (st.nextIdx pos)

/-- Modelled from the spec: `hasNewlineInRange(text, a, b)` of
`common/util.js` — whether the slice `[a, b)` of the text contains a
newline. -/
def hasNewlineInRange (st : SourceText) (a b : Nat) : Bool :=
  ((st.chars.drop a).take (b - a)).contains '\n'

/-- Modelled from the spec: `isNonEmptyArray` of `common/util.js`. -/
def isNonEmptyArray (l : List Nat) : Bool :=
  !l.isEmpty

/-- JavaScript whitespace test used by `String.prototype.trim`. -/
def isJsSpace (c : Char) : Bool :=
  c = ' ' || c = '\t' || c = '\n' || c = '\r'

/-- JavaScript `String.prototype.trim` over a character list. -/
def jsTrim (cs : List Char) : List Char :=
  ((cs.dropWhile isJsSpace).reverse.dropWhile isJsSpace).reverse

/-- Modelled from the spec: `isPrettierIgnoreComment` of `utils/index.js` —
a suppression-marker comment whose trimmed text is `prettier-ignore` and
that has not already been released by ignore handling. -/
def isPrettierIgnoreComment (c : Comment) : Bool :=
  jsTrim c.value.data = "prettier-ignore".data && !c.unignore

/-- Modelled from the spec: `isLineComment` of `utils/index.js` — the kind
tags parsers give to single-line comments. -/
def isLineComment (c : Comment) : Bool :=
  c.ctype = "Line" || c.ctype = "CommentLine" || c.ctype = "SingleLine" ||
    c.ctype = "HashbangComment" || c.ctype = "HTMLOpen" || c.ctype = "HTMLClose"

/-- Modelled from the spec: `isBlockComment` of `utils/is-block-comment.js`
— the kind tags parsers give to block comments. -/
def isBlockComment (c : Comment) : Bool :=
  c.ctype = "Block" || c.ctype = "CommentBlock" || c.ctype = "MultiLine"

/-- A word character for the regular-expression boundary `\b`. -/
def isWordChar (c : Char) : Bool :=
  c.isAlphanum || c = '_'

/-- Whether the text starts with `@type` followed by a word boundary. -/
def atTypeHere (cs : List Char) : Bool :=
  match cs with
  | c1 :: c2 :: c3 :: c4 :: c5 :: rest =>
    c1 == '@' && c2 == 't' && c3 == 'y' && c4 == 'p' && c5 == 'e' &&
      (match rest with
       | [] => true
       | c :: _ => !isWordChar c)
  | _ => false

/-- The regular-expression test `/@type\b/.test s`: some suffix of `s`
starts with `@type` at a word boundary. -/
def hasAtTypeWordBoundary : List Char → Bool
  | [] => false
  | c :: rest => atTypeHere (c :: rest) || hasAtTypeWordBoundary rest

/-- Translation of `isTypeCastComment` (source lines 959–968): a block comment whose text
starts with `*` and matches `/@type\b/`. -/
def isTypeCastComment (c : Comment) : Bool :=
  isBlockComment c &&
    c.value.data.head? = some '*' &&
    hasAtTypeWordBoundary c.value.data

/-- Modelled from the spec: the marker string
`markerForIfWithoutBlockAndSameLineComment` of `utils/index.js`. -/
def markerForIfWithoutBlockAndSameLineComment : String :=
  "if-without-block-and-same-line-comment"

/-- Modelled from the spec: `isMemberExpression` of `utils/index.js`. -/
def isMemberExpressionOpt (t : Arena) : Option Nat → Bool
  | none => false
  | some n => (t n).type_ = "MemberExpression" || (t n).type_ = "OptionalMemberExpression"

/-- Modelled from the spec: `isObjectProperty` of `utils/index.js`. -/
def isObjectPropertyOpt (t : Arena) : Option Nat → Bool
  | none => false
  | some n => (t n).type_ = "ObjectProperty" || (t n).type_ = "Property"

/-- Modelled from the spec: `isCallExpression` of `utils/index.js`. -/
def isCallExpressionOpt (t : Arena) : Option Nat → Bool
  | none => false
  | some n => (t n).type_ = "CallExpression" || (t n).type_ = "OptionalCallExpression"

/-- Modelled from the spec: `isCallLikeExpression` of `utils/index.js` —
call-like shapes carrying an argument list. -/
def isCallLikeExpression (d : NodeData) : Bool :=
  d.type_ = "CallExpression" || d.type_ = "OptionalCallExpression" ||
    d.type_ = "NewExpression" || d.type_ = "ImportExpression"

/-- Modelled from the spec: `getFunctionParameters` of `utils/index.js` —
the node's parameter list. -/
def getFunctionParameters (t : Arena) (n : Nat) : List Nat :=
  (t n).params

/-- Modelled from the spec: `getCallArguments` of `utils/index.js` — the
node's argument list. -/
def getCallArguments (t : Arena) (n : Nat) : List Nat :=
  (t n).arguments

/-- Translation of `isRealFunctionLikeNode` (source lines 907–922). -/
def isRealFunctionLikeNode (d : NodeData) : Bool :=
  d.type_ = "ArrowFunctionExpression" || d.type_ = "FunctionExpression" ||
    d.type_ = "FunctionDeclaration" || d.type_ = "ObjectMethod" ||
    d.type_ = "ClassMethod" || d.type_ = "TSDeclareFunction" ||
    d.type_ = "TSCallSignatureDeclaration" ||
    d.type_ = "TSConstructSignatureDeclaration" ||
    d.type_ = "TSMethodSignature" || d.type_ = "TSConstructorType" ||
    d.type_ = "TSFunctionType" || d.type_ = "TSDeclareMethod"

/-- The class-like node kinds of `classLikeNodeTypes` (source lines 388–395). -/
def classLike (s : String) : Bool :=
  s = "ClassDeclaration" || s = "ClassExpression" || s = "DeclareClass" ||
    s = "DeclareInterface" || s = "InterfaceDeclaration" ||
    s = "TSInterfaceDeclaration"

/-- The property-like node kinds of `propertyLikeNodeTypes`
(source lines 450–458). -/
def propertyLike (s : String) : Bool :=
  s = "ClassMethod" || s = "ClassProperty" || s = "PropertyDefinition" ||
    s = "TSAbstractPropertyDefinition" || s = "TSAbstractMethodDefinition" ||
    s = "TSDeclareMethod" || s = "MethodDefinition"

/-- The assignment-like node kinds of `assignmentLikeNodeTypes`
(source lines 796–801). -/
def assignmentLike (s : String) : Bool :=
  s = "VariableDeclarator" || s = "AssignmentExpression" || s = "TypeAlias" ||
    s = "TSTypeAliasDeclaration"

/-- The complex-initializer node kinds of `complexExprNodeTypes`
(source lines 802–809). -/
def complexExpr (s : String) : Bool :=
  s = "ObjectExpression" || s = "ArrayExpression" || s = "TemplateLiteral" ||
    s = "TaggedTemplateExpression" || s = "ObjectTypeAnnotation" ||
    s = "TSTypeLiteral"

/-- Translation of `addBlockStatementFirstComment` (source lines 125–135): route a comment
to the first non-empty statement of a block (leading), or to the block
itself (dangling) when there is none; the one append it commits.  `none`
models the `TypeError` raised when the node has neither a `body` list nor
`properties`. -/
def addBlockStatementFirstComment (t : Arena) (n : Nat) : Option Attachment :=
  match (t n).bodyList <|> (t n).properties with
  | none => none
  | some l =>
    match l.find? (fun c => (t c).type_ != "EmptyStatement") with
    | some firstNonEmpty => some (.leading firstNonEmpty)
    | none => some (.dangling n none)

/-- Translation of `addBlockOrNotComment` (source lines 141–147). -/
def addBlockOrNotComment (t : Arena) (n : Nat) : Option Attachment :=
  if (t n).type_ = "BlockStatement" then addBlockStatementFirstComment t n
  else some (.leading n)

/-- Translation of `handleClosureTypeCastComments` (source lines 149–155). -/
def handleClosureTypeCastComments (ctx : Ctx) : Option HRes :=
  match ctx.followingNode with
  | some f =>
    if isTypeCastComment ctx.comment then some ⟨true, [.leading f], []⟩
    else some ⟨false, [], []⟩
  | none => some ⟨false, [], []⟩

/-- Translation of `handleIfStatementComments` (source lines 173–253).  Reads the
cuddled-else control from the module-level options object `g`, not from the
context. -/
def handleIfStatementComments (g : GlobalOptions) (ctx : Ctx) : Option HRes :=
  let t := ctx.tree
  match ctx.enclosingNode, ctx.followingNode with
  | some e, some f =>
    if (t e).type_ != "IfStatement" then some ⟨false, [], []⟩
    else if getNextNonSpaceNonCommentCharacter ctx.text ctx.comment.endPos == ")" then
      match ctx.precedingNode with
      | some p => some ⟨true, [.trailing p], []⟩
      | none => none
    else if ctx.precedingNode == (t e).consequent && some f == (t e).alternate then
      match ctx.precedingNode with
      | none => none
      | some p =>
        if (t p).type_ == "BlockStatement" && !g.breakBeforeElse then
          some ⟨true, [.trailing p], []⟩
        else
          let isSingleLineComment := ctx.comment.ctype == "SingleLine" ||
            ctx.comment.startLine == ctx.comment.endLine
          let isSameLineComment := ctx.comment.startLine == (t p).startLine
          if isSingleLineComment && isSameLineComment then
            some ⟨true, [.dangling p (some markerForIfWithoutBlockAndSameLineComment)], []⟩
          else
            some ⟨true, [.dangling e none], []⟩
    else if (t f).type_ == "BlockStatement" then
      (addBlockStatementFirstComment t f).map (fun a => ⟨true, [a], []⟩)
    else if (t f).type_ == "IfStatement" then
      match (t f).consequent with
      | none => none
      | some c => (addBlockOrNotComment t c).map (fun a => ⟨true, [a], []⟩)
    else if (t e).consequent == some f then
      some ⟨true, [.leading f], []⟩
    else
      some ⟨false, [], []⟩
  | _, _ => some ⟨false, [], []⟩

/-- Translation of `handleWhileComments` (source lines 255–292). -/
def handleWhileComments (ctx : Ctx) : Option HRes :=
  let t := ctx.tree
  match ctx.enclosingNode, ctx.followingNode with
  | some e, some f =>
    if (t e).type_ != "WhileStatement" then some ⟨false, [], []⟩
    else if getNextNonSpaceNonCommentCharacter ctx.text ctx.comment.endPos == ")" then
      match ctx.precedingNode with
      | some p => some ⟨true, [.trailing p], []⟩
      | none => none
    else if (t f).type_ == "BlockStatement" then
      (addBlockStatementFirstComment t f).map (fun a => ⟨true, [a], []⟩)
    else if (t e).bodyNode == some f then
      some ⟨true, [.leading f], []⟩
    else
      some ⟨false, [], []⟩
  | _, _ => some ⟨false, [], []⟩

/-- Translation of `handleTryStatementComments` (source lines 295–330). -/
def handleTryStatementComments (ctx : Ctx) : Option HRes :=
  let t := ctx.tree
  match ctx.enclosingNode, ctx.followingNode with
  | some e, some f =>
    if (t e).type_ != "TryStatement" && (t e).type_ != "CatchClause" then
      some ⟨false, [], []⟩
    else if (t e).type_ == "CatchClause" && ctx.precedingNode.isSome then
      match ctx.precedingNode with
      | some p => some ⟨true, [.trailing p], []⟩
      | none => some ⟨false, [], []⟩
    else if (t f).type_ == "BlockStatement" then
      (addBlockStatementFirstComment t f).map (fun a => ⟨true, [a], []⟩)
    else if (t f).type_ == "TryStatement" then
      match (t f).finalizer with
      | none => none
      | some fin => (addBlockOrNotComment t fin).map (fun a => ⟨true, [a], []⟩)
    else if (t f).type_ == "CatchClause" then
      match (t f).bodyNode with
      | none => none
      | some b => (addBlockOrNotComment t b).map (fun a => ⟨true, [a], []⟩)
    else
      some ⟨false, [], []⟩
  | _, _ => some ⟨false, [], []⟩

/-- Translation of `handleMemberExpressionComments` (source lines 332–346). -/
def handleMemberExpressionComments (ctx : Ctx) : Option HRes :=
  let t := ctx.tree
  match ctx.enclosingNode, ctx.followingNode with
  | some e, some f =>
    if isMemberExpressionOpt t (some e) && (t f).type_ == "Identifier" then
      some ⟨true, [.leading e], []⟩
    else some ⟨false, [], []⟩
  | _, _ => some ⟨false, [], []⟩

/-- Translation of `handleConditionalExpressionComments` (source lines 348–369). -/
def handleConditionalExpressionComments (ctx : Ctx) : Option HRes :=
  let t := ctx.tree
  let isSameLineAsPrecedingNode :=
    match ctx.precedingNode with
    | some p => !hasNewlineInRange ctx.text (t p).endPos ctx.comment.startPos
    | none => false
  match ctx.enclosingNode, ctx.followingNode with
  | some e, some f =>
    if (ctx.precedingNode.isNone || !isSameLineAsPrecedingNode) &&
        ((t e).type_ == "ConditionalExpression" ||
          (t e).type_ == "TSConditionalType") then
      some ⟨true, [.leading f], []⟩
    else some ⟨false, [], []⟩
  | _, _ => some ⟨false, [], []⟩

/-- Translation of `handleObjectPropertyAssignment` (source lines 371–386). -/
def handleObjectPropertyAssignment (ctx : Ctx) : Option HRes :=
  let t := ctx.tree
  match ctx.enclosingNode with
  | some e =>
    if isObjectPropertyOpt t (some e) && (t e).shorthand &&
        (t e).key == ctx.precedingNode then
      match (t e).value with
      | none => none
      | some v =>
        if (t v).type_ == "AssignmentPattern" then
          match (t v).left with
          | none => none
          | some l => some ⟨true, [.trailing l], []⟩
        else some ⟨false, [], []⟩
    else some ⟨false, [], []⟩
  | none => some ⟨false, [], []⟩

/-- Whether `followingNode === enclosingNode[prop][0]` holds for one of the
heritage lists of `handleClassComments` (source line 431). -/
def classPropHit (f : Nat) : Option (List Nat) → Bool
  | none => false
  | some xs => xs.head? == some f

/-- The body of the heritage-list loop of `handleClassComments`
(source lines 432–442). -/
def classPropDecision (t : Arena) (ctx : Ctx) (e : Nat) (propName : String) : Option HRes :=
  match ctx.precedingNode with
  | some p =>
    if (t e).id_ == some p || (t e).typeParameters == some p ||
        (t e).superClass == some p then
      some ⟨true, [.trailing p], []⟩
    else some ⟨true, [.dangling e (some propName)], []⟩
  | none => some ⟨true, [.dangling e (some propName)], []⟩

/-- Translation of `handleClassComments` (source lines 396–448). -/
def handleClassComments (ctx : Ctx) : Option HRes :=
  let t := ctx.tree
  match ctx.enclosingNode with
  | none => some ⟨false, [], []⟩
  | some e =>
    if !classLike (t e).type_ then some ⟨false, [], []⟩
    else if isNonEmptyArray (t e).decorators &&
        !(match ctx.followingNode with
          | some f => (t f).type_ == "Decorator"
          | none => false) then
      match (t e).decorators.getLast? with
      | some d => some ⟨true, [.trailing d], []⟩
      | none => none
    else if (t e).bodyNode.isSome && ctx.followingNode == (t e).bodyNode then
      match (t e).bodyNode with
      | some b => (addBlockStatementFirstComment t b).map (fun a => ⟨true, [a], []⟩)
      | none => none
    else
      match ctx.followingNode with
      | none => some ⟨false, [], []⟩
      | some f =>
        if (t e).superClass.isSome && some f == (t e).superClass &&
            (match ctx.precedingNode with
             | some p => (t e).id_ == some p || (t e).typeParameters == some p
             | none => false) then
          match ctx.precedingNode with
          | some p => some ⟨true, [.trailing p], []⟩
          | none => some ⟨false, [], []⟩
        else if classPropHit f (t e).implements_ then classPropDecision t ctx e "implements"
        else if classPropHit f (t e).extends_ then classPropDecision t ctx e "extends"
        else if classPropHit f (t e).mixins then classPropDecision t ctx e "mixins"
        else some ⟨false, [], []⟩

/-- Translation of `handleMethodNameComments` (source lines 459–497). -/
def handleMethodNameComments (ctx : Ctx) : Option HRes :=
  let t := ctx.tree
  match ctx.enclosingNode, ctx.precedingNode with
  | some e, some p =>
    if getNextNonSpaceNonCommentCharacter ctx.text ctx.comment.endPos == "(" &&
        ((t e).type_ == "Property" || (t e).type_ == "TSDeclareMethod" ||
          (t e).type_ == "TSAbstractMethodDefinition") &&
        (t p).type_ == "Identifier" && (t e).key == some p &&
        getNextNonSpaceNonCommentCharacter ctx.text (t p).endPos != ":" then
      some ⟨true, [.trailing p], []⟩
    else if (t p).type_ == "Decorator" && propertyLike (t e).type_ then
      some ⟨true, [.trailing p], []⟩
    else some ⟨false, [], []⟩
  | _, _ => some ⟨false, [], []⟩

/-- The function-like node kinds of `functionLikeNodeTypes`
(source lines 499–505). -/
def inFunctionLikeNodeTypes (s : String) : Bool :=
  s == "FunctionDeclaration" || s == "FunctionExpression" || s == "ClassMethod" ||
    s == "MethodDefinition" || s == "ObjectMethod"

/-- Translation of `handleFunctionNameComments` (source lines 506–520). -/
def handleFunctionNameComments (ctx : Ctx) : Option HRes :=
  let t := ctx.tree
  if getNextNonSpaceNonCommentCharacter ctx.text ctx.comment.endPos != "(" then
    some ⟨false, [], []⟩
  else
    match ctx.precedingNode, ctx.enclosingNode with
    | some p, some e =>
      if inFunctionLikeNodeTypes (t e).type_ then some ⟨true, [.trailing p], []⟩
      else some ⟨false, [], []⟩
    | _, _ => some ⟨false, [], []⟩

/-- Translation of `handleCommentAfterArrowParams` (source lines 522–534).  The modelled
skip query is total, so the source's `index !== false` test always
passes. -/
def handleCommentAfterArrowParams (ctx : Ctx) : Option HRes :=
  let t := ctx.tree
  match ctx.enclosingNode with
  | some e =>
    if (t e).type_ != "ArrowFunctionExpression" then some ⟨false, [], []⟩
    else
      let index := ctx.text.nextIdx ctx.comment.endPos
      if sliceStr ctx.text.chars index 2 == "=>" then
        some ⟨true, [.dangling e none], []⟩
      else some ⟨false, [], []⟩
  | none => some ⟨false, [], []⟩

/-- Translation of `handleCommentInEmptyParens` (source lines 536–562). -/
def handleCommentInEmptyParens (ctx : Ctx) : Option HRes :=
  let t := ctx.tree
  if getNextNonSpaceNonCommentCharacter ctx.text ctx.comment.endPos != ")" then
    some ⟨false, [], []⟩
  else
    match ctx.enclosingNode with
    | some e =>
      if (isRealFunctionLikeNode (t e) && (getFunctionParameters t e).isEmpty) ||
          (isCallLikeExpression (t e) && (getCallArguments t e).isEmpty) then
        some ⟨true, [.dangling e none], []⟩
      else if (t e).type_ == "MethodDefinition" ||
          (t e).type_ == "TSAbstractMethodDefinition" then
        match (t e).value with
        | none => none
        | some v =>
          if (getFunctionParameters t v).isEmpty then
            some ⟨true, [.dangling v none], []⟩
          else some ⟨false, [], []⟩
      else some ⟨false, [], []⟩
    | none => some ⟨false, [], []⟩

/-- Translation of `handleLastFunctionArgComments` (source lines 564–625).  The modelled
skip query is total, so the source's dead `!== false` alternatives do not
arise. -/
def handleLastFunctionArgComments (ctx : Ctx) : Option HRes :=
  let t := ctx.tree
  let flowBranch :=
    (match ctx.precedingNode with
     | some p => (t p).type_ == "FunctionTypeParam"
     | none => false) &&
    (match ctx.enclosingNode with
     | some e => (t e).type_ == "FunctionTypeAnnotation"
     | none => false) &&
    (match ctx.followingNode with
     | some f => (t f).type_ != "FunctionTypeParam"
     | none => true)
  if flowBranch then
    match ctx.precedingNode with
    | some p => some ⟨true, [.trailing p], []⟩
    | none => some ⟨false, [], []⟩
  else
    let realBranch :=
      (match ctx.precedingNode with
       | some p => (t p).type_ == "Identifier" || (t p).type_ == "AssignmentPattern"
       | none => false) &&
      (match ctx.enclosingNode with
       | some e => isRealFunctionLikeNode (t e)
       | none => false) &&
      getNextNonSpaceNonCommentCharacter ctx.text ctx.comment.endPos == ")"
    if realBranch then
      match ctx.precedingNode with
      | some p => some ⟨true, [.trailing p], []⟩
      | none => some ⟨false, [], []⟩
    else
      match ctx.enclosingNode, ctx.followingNode with
      | some e, some f =>
        if (t e).type_ == "FunctionDeclaration" && (t f).type_ == "BlockStatement" then
          match (getFunctionParameters t e).getLast? with
          | some lastParam =>
            let functionParamRightParenIndex := ctx.text.nextIdx (t lastParam).endPos
            if ctx.comment.startPos > functionParamRightParenIndex then
              (addBlockStatementFirstComment t f).map (fun a => ⟨true, [a], []⟩)
            else some ⟨false, [], []⟩
          | none =>
            match (t e).id_ with
            | none => none
            | some idn =>
              let functionParamLeftParenIndex := ctx.text.nextIdx (t idn).endPos
              let functionParamRightParenIndex :=
                ctx.text.nextIdx (functionParamLeftParenIndex + 1)
              if ctx.comment.startPos > functionParamRightParenIndex then
                (addBlockStatementFirstComment t f).map (fun a => ⟨true, [a], []⟩)
              else some ⟨false, [], []⟩
        else some ⟨false, [], []⟩
      | _, _ => some ⟨false, [], []⟩

/-- Translation of `handleLabeledStatementComments` (source lines 627–633). -/
def handleLabeledStatementComments (ctx : Ctx) : Option HRes :=
  match ctx.enclosingNode with
  | some e =>
    if (ctx.tree e).type_ == "LabeledStatement" then some ⟨true, [.leading e], []⟩
    else some ⟨false, [], []⟩
  | none => some ⟨false, [], []⟩

/-- Translation of `handleBreakAndContinueStatementComments` (source lines 635–645). -/
def handleBreakAndContinueStatementComments (ctx : Ctx) : Option HRes :=
  let t := ctx.tree
  match ctx.enclosingNode with
  | some e =>
    if ((t e).type_ == "ContinueStatement" || (t e).type_ == "BreakStatement") &&
        (t e).label.isNone then
      some ⟨true, [.trailing e], []⟩
    else some ⟨false, [], []⟩
  | none => some ⟨false, [], []⟩

/-- Translation of `handleCallExpressionComments` (source lines 647–662). -/
def handleCallExpressionComments (ctx : Ctx) : Option HRes :=
  let t := ctx.tree
  match ctx.enclosingNode, ctx.precedingNode with
  | some e, some p =>
    if isCallExpressionOpt t (some e) && (t e).callee == some p &&
        !(t e).arguments.isEmpty then
      match (t e).arguments with
      | a0 :: _ => some ⟨true, [.leading a0], []⟩
      | [] => none
    else some ⟨false, [], []⟩
  | _, _ => some ⟨false, [], []⟩

/-- The fall-through tail of `handleUnionTypeComments`
(source lines 685–694): a prettier-ignore comment in front of a union type
marks the first member type instead of being attached. -/
def handleUnionTypeCommentsFallthrough (ctx : Ctx) : Option HRes :=
  let t := ctx.tree
  match ctx.followingNode with
  | some f =>
    if ((t f).type_ == "UnionTypeAnnotation" || (t f).type_ == "TSUnionType") &&
        isPrettierIgnoreComment ctx.comment then
      match (t f).types with
      | [] => none
      | t0 :: _ => some ⟨false, [], [Effect.prettierIgnoreOn t0, Effect.unignoreComment]⟩
    else some ⟨false, [], []⟩
  | none => some ⟨false, [], []⟩

/-- Translation of `handleUnionTypeComments` (source lines 664–695). -/
def handleUnionTypeComments (ctx : Ctx) : Option HRes :=
  let t := ctx.tree
  match ctx.enclosingNode with
  | some e =>
    if (t e).type_ == "UnionTypeAnnotation" || (t e).type_ == "TSUnionType" then
      if isPrettierIgnoreComment ctx.comment then
        match ctx.followingNode with
        | none => none
        | some f =>
          match ctx.precedingNode with
          | some p =>
            some ⟨true, [.trailing p], [Effect.prettierIgnoreOn f, Effect.unignoreComment]⟩
          | none => some ⟨false, [], [Effect.prettierIgnoreOn f, Effect.unignoreComment]⟩
      else
        match ctx.precedingNode with
        | some p => some ⟨true, [.trailing p], []⟩
        | none => some ⟨false, [], []⟩
    else handleUnionTypeCommentsFallthrough ctx
  | none => handleUnionTypeCommentsFallthrough ctx

/-- Translation of `handlePropertyComments` (source lines 697–703). -/
def handlePropertyComments (ctx : Ctx) : Option HRes :=
  let t := ctx.tree
  match ctx.enclosingNode with
  | some e =>
    if isObjectPropertyOpt t (some e) then some ⟨true, [.leading e], []⟩
    else some ⟨false, [], []⟩
  | none => some ⟨false, [], []⟩

/-- The third branch of `handleOnlyComments` (source lines 735–742). -/
def handleOnlyCommentsThird (ctx : Ctx) : Option HRes :=
  let t := ctx.tree
  match ctx.followingNode with
  | some f =>
    if (t f).type_ == "Program" then
      match (t f).bodyList with
      | none => none
      | some l =>
        if l.isEmpty &&
            (match ctx.enclosingNode with
             | some e => (t e).type_ == "ModuleExpression"
             | none => false) then
          some ⟨true, [.dangling f none], []⟩
        else some ⟨false, [], []⟩
    else some ⟨false, [], []⟩
  | none => some ⟨false, [], []⟩

/-- Translation of `handleOnlyComments` (source lines 705–745).  In the arena model the
`ast` root always resolves, so `ast && ast.body` is the presence test on
its statement list. -/
def handleOnlyComments (ctx : Ctx) : Option HRes :=
  let t := ctx.tree
  match (t ctx.ast).bodyList with
  | some [] =>
    if ctx.isLastComment then some ⟨true, [.dangling ctx.ast none], []⟩
    else some ⟨true, [.leading ctx.ast], []⟩
  | _ =>
    match ctx.enclosingNode with
    | some e =>
      if (t e).type_ == "Program" then
        match (t e).bodyList with
        | none => none
        | some l =>
          if l.isEmpty && !isNonEmptyArray (t e).directives then
            if ctx.isLastComment then some ⟨true, [.dangling e none], []⟩
            else some ⟨true, [.leading e], []⟩
          else handleOnlyCommentsThird ctx
      else handleOnlyCommentsThird ctx
    | none => handleOnlyCommentsThird ctx

/-- Translation of `handleForComments` (source lines 747–756). -/
def handleForComments (ctx : Ctx) : Option HRes :=
  let t := ctx.tree
  match ctx.enclosingNode with
  | some e =>
    if (t e).type_ == "ForInStatement" || (t e).type_ == "ForOfStatement" then
      some ⟨true, [.leading e], []⟩
    else some ⟨false, [], []⟩
  | none => some ⟨false, [], []⟩

/-- Translation of `handleModuleSpecifiersComments` (source lines 758–786). -/
def handleModuleSpecifiersComments (ctx : Ctx) : Option HRes :=
  let t := ctx.tree
  match ctx.enclosingNode with
  | some e =>
    if (t e).type_ == "ImportSpecifier" || (t e).type_ == "ExportSpecifier" then
      some ⟨true, [.leading e], []⟩
    else
      match ctx.precedingNode with
      | some p =>
        let isImportDeclaration :=
          (t p).type_ == "ImportSpecifier" && (t e).type_ == "ImportDeclaration"
        let isExportDeclaration :=
          (t p).type_ == "ExportSpecifier" && (t e).type_ == "ExportNamedDeclaration"
        if (isImportDeclaration || isExportDeclaration) &&
            ctx.text.hasNewlineAfter ctx.comment.endPos then
          some ⟨true, [.trailing p], []⟩
        else some ⟨false, [], []⟩
      | none => some ⟨false, [], []⟩
  | none => some ⟨false, [], []⟩

/-- Translation of `handleAssignmentPatternComments` (source lines 788–794). -/
def handleAssignmentPatternComments (ctx : Ctx) : Option HRes :=
  match ctx.enclosingNode with
  | some e =>
    if (ctx.tree e).type_ == "AssignmentPattern" then some ⟨true, [.leading e], []⟩
    else some ⟨false, [], []⟩
  | none => some ⟨false, [], []⟩

/-- Translation of `handleVariableDeclaratorComments` (source lines 810–824). -/
def handleVariableDeclaratorComments (ctx : Ctx) : Option HRes :=
  let t := ctx.tree
  match ctx.enclosingNode, ctx.followingNode with
  | some e, some f =>
    if assignmentLike (t e).type_ &&
        (complexExpr (t f).type_ || isBlockComment ctx.comment) then
      some ⟨true, [.leading f], []⟩
    else some ⟨false, [], []⟩
  | _, _ => some ⟨false, [], []⟩

/-- Translation of `handleTSFunctionTrailingComments` (source lines 826–843). -/
def handleTSFunctionTrailingComments (ctx : Ctx) : Option HRes :=
  let t := ctx.tree
  match ctx.enclosingNode with
  | some e =>
    if ctx.followingNode.isNone &&
        ((t e).type_ == "TSMethodSignature" || (t e).type_ == "TSDeclareFunction" ||
          (t e).type_ == "TSAbstractMethodDefinition") &&
        getNextNonSpaceNonCommentCharacter ctx.text ctx.comment.endPos == ";" then
      some ⟨true, [.trailing e], []⟩
    else some ⟨false, [], []⟩
  | none => some ⟨false, [], []⟩

/-- Translation of `handleIgnoreComments` (source lines 845–856): sets ignore flags and
reports the comment as handled without committing any attachment. -/
def handleIgnoreComments (ctx : Ctx) : Option HRes :=
  let t := ctx.tree
  match ctx.enclosingNode, ctx.followingNode with
  | some e, some f =>
    if isPrettierIgnoreComment ctx.comment && (t e).type_ == "TSMappedType" &&
        (t f).type_ == "TSTypeParameter" && (t f).constraint.isSome then
      some ⟨true, [], [Effect.prettierIgnoreOn e, Effect.unignoreComment]⟩
    else some ⟨false, [], []⟩
  | _, _ => some ⟨false, [], []⟩

/-- Translation of `handleTSMappedTypeComments` (source lines 858–879). -/
def handleTSMappedTypeComments (ctx : Ctx) : Option HRes :=
  let t := ctx.tree
  match ctx.enclosingNode with
  | none => some ⟨false, [], []⟩
  | some e =>
    if (t e).type_ != "TSMappedType" then some ⟨false, [], []⟩
    else
      match ctx.followingNode.bind
          (fun f => if (t f).type_ == "TSTypeParameter" then (t f).name else none) with
      | some nm => some ⟨true, [.leading nm], []⟩
      | none =>
        match ctx.precedingNode.bind
            (fun p => if (t p).type_ == "TSTypeParameter" then (t p).constraint else none) with
        | some cn => some ⟨true, [.trailing cn], []⟩
        | none => some ⟨false, [], []⟩

/-- Translation of `handleSwitchDefaultCaseComments` (source lines 881–901).  When the
test-less switch-case guard passes, the source reads `followingNode.type`
without a guard; with an absent following node that raises. -/
def handleSwitchDefaultCaseComments (ctx : Ctx) : Option HRes :=
  let t := ctx.tree
  match ctx.enclosingNode with
  | none => some ⟨false, [], []⟩
  | some e =>
    if (t e).type_ != "SwitchCase" || (t e).test.isSome then some ⟨false, [], []⟩
    else
      match ctx.followingNode with
      | none => none
      | some f =>
        if (t f).type_ == "BlockStatement" && isLineComment ctx.comment then
          (addBlockStatementFirstComment t f).map (fun a => ⟨true, [a], []⟩)
        else some ⟨true, [.dangling e none], []⟩

/-- The first-claim-wins evaluation of a handler chain
(`[...].some((fn) => fn(context))` in the three entry points), collecting
every append and side effect committed during the invocation and
propagating a raised error. -/
def runChain : List (Ctx → Option HRes) → Ctx → Option HRes
  | [], _ => some ⟨false, [], []⟩
  | h :: hs, ctx =>
    match h ctx with
    | none => none
    | some r =>
      if r.claimed then some r
      else
        match runChain hs ctx with
        | none => none
        | some r2 => some ⟨r2.claimed, r.atts ++ r2.atts, r.effs ++ r2.effs⟩

/-- Translation of `handleOwnLineComment` (source lines 56–74). -/
def handleOwnLineComment (g : GlobalOptions) (ctx : Ctx) : Option HRes :=
  runChain
    [handleIgnoreComments,
     handleLastFunctionArgComments,
     handleMemberExpressionComments,
     handleIfStatementComments g,
     handleWhileComments,
     handleTryStatementComments,
     handleClassComments,
     handleForComments,
     handleUnionTypeComments,
     handleOnlyComments,
     handleModuleSpecifiersComments,
     handleAssignmentPatternComments,
     handleMethodNameComments,
     handleLabeledStatementComments,
     handleBreakAndContinueStatementComments] ctx

/-- Translation of `handleEndOfLineComment` (source lines 80–98). -/
def handleEndOfLineComment (g : GlobalOptions) (ctx : Ctx) : Option HRes :=
  runChain
    [handleClosureTypeCastComments,
     handleLastFunctionArgComments,
     handleConditionalExpressionComments,
     handleModuleSpecifiersComments,
     handleIfStatementComments g,
     handleWhileComments,
     handleTryStatementComments,
     handleClassComments,
     handleLabeledStatementComments,
     handleCallExpressionComments,
     handlePropertyComments,
     handleOnlyComments,
     handleVariableDeclaratorComments,
     handleBreakAndContinueStatementComments,
     handleSwitchDefaultCaseComments] ctx

/-- Translation of `handleRemainingComment` (source lines 104–119). -/
def handleRemainingComment (g : GlobalOptions) (ctx : Ctx) : Option HRes :=
  runChain
    [handleIgnoreComments,
     handleIfStatementComments g,
     handleWhileComments,
     handleObjectPropertyAssignment,
     handleCommentInEmptyParens,
     handleMethodNameComments,
     handleOnlyComments,
     handleCommentAfterArrowParams,
     handleFunctionNameComments,
     handleTSMappedTypeComments,
     handleBreakAndContinueStatementComments,
     handleTSFunctionTrailingComments] ctx

/-! ## Supporting definitions for the claims -/

/-- A node has the statement/member list that `node.body || node.properties`
dereferences in `addBlockStatementFirstComment`. -/
def hasStatementList (t : Arena) (n : Nat) : Prop :=
  ((t n).bodyList <|> (t n).properties).isSome = true

/-- The parser-shape invariants of a node that the handlers rely on
(specification §3 and §7: tree shapes are a precondition owned by the tree
producer): an if-statement has a consequent, blocks and programs carry
statement lists, a catch clause has a body, a try finalizer is a block,
object properties have values, method definitions have function values,
union types are non-empty, class bodies carry member lists. -/
def WFData (t : Arena) (n : Nat) : Prop :=
  ((t n).type_ = "IfStatement" →
    ∃ c, (t n).consequent = some c ∧
      ((t c).type_ = "BlockStatement" → hasStatementList t c)) ∧
  ((t n).type_ = "BlockStatement" → hasStatementList t n) ∧
  ((t n).type_ = "CatchClause" →
    ∃ b, (t n).bodyNode = some b ∧
      ((t b).type_ = "BlockStatement" → hasStatementList t b)) ∧
  ((t n).type_ = "TryStatement" →
    ∀ fz, (t n).finalizer = some fz →
      ((t fz).type_ = "BlockStatement" → hasStatementList t fz)) ∧
  ((t n).type_ = "Program" → (t n).bodyList.isSome = true) ∧
  (((t n).type_ = "ObjectProperty" ∨ (t n).type_ = "Property") →
    ∃ v, (t n).value = some v ∧
      ((t v).type_ = "AssignmentPattern" → (t v).left.isSome = true)) ∧
  (((t n).type_ = "MethodDefinition" ∨ (t n).type_ = "TSAbstractMethodDefinition") →
    (t n).value.isSome = true) ∧
  (((t n).type_ = "UnionTypeAnnotation" ∨ (t n).type_ = "TSUnionType") →
    (t n).types ≠ []) ∧
  (classLike (t n).type_ = true → ∀ b, (t n).bodyNode = some b → hasStatementList t b)

/-- A context whose enclosing and following nodes satisfy the parser-shape
invariants. -/
def WFCtx (ctx : Ctx) : Prop :=
  (∀ n, ctx.enclosingNode = some n → WFData ctx.tree n) ∧
  (∀ n, ctx.followingNode = some n → WFData ctx.tree n)

/-- The condition-parenthesis dereference spot: next character `)` with an
absent preceding node makes `addTrailingComment(precedingNode, …)` raise in
the if/while handlers. -/
def parenHazard (ctx : Ctx) (ty : String) : Prop :=
  ctx.precedingNode = none ∧
  (∃ e, ctx.enclosingNode = some e ∧ (ctx.tree e).type_ = ty) ∧
  ctx.followingNode.isSome = true ∧
  getNextNonSpaceNonCommentCharacter ctx.text ctx.comment.endPos = ")"

/-- The try-handler dereference spot: a following try statement without a
finalizer makes `addBlockOrNotComment(followingNode.finalizer, …)` raise. -/
def tryFinalizerHazard (ctx : Ctx) : Prop :=
  ∃ f, ctx.followingNode = some f ∧ (ctx.tree f).type_ = "TryStatement" ∧
    (ctx.tree f).finalizer = none

/-- The union-type dereference spot: a prettier-ignore comment inside a
union type with an absent following node makes
`followingNode.prettierIgnore = true` raise. -/
def unionIgnoreHazard (ctx : Ctx) : Prop :=
  isPrettierIgnoreComment ctx.comment = true ∧
  ctx.followingNode = none ∧
  ∃ e, ctx.enclosingNode = some e ∧
    ((ctx.tree e).type_ = "UnionTypeAnnotation" ∨ (ctx.tree e).type_ = "TSUnionType")

/-- The switch-default dereference spot: a test-less switch case with an
absent following node makes `followingNode.type` raise. -/
def switchDefaultHazard (ctx : Ctx) : Prop :=
  ctx.followingNode = none ∧
  ∃ e, ctx.enclosingNode = some e ∧ (ctx.tree e).type_ = "SwitchCase" ∧
    (ctx.tree e).test = none

/-- The last-function-argument dereference spot: an anonymous
zero-parameter function declaration makes `locEnd(enclosingNode.id)`
raise. -/
def anonFunctionHazard (ctx : Ctx) : Prop :=
  ∃ e, ctx.enclosingNode = some e ∧ (ctx.tree e).type_ = "FunctionDeclaration" ∧
    (ctx.tree e).params = [] ∧ (ctx.tree e).id_ = none

/-- The guard of `handleIgnoreComments` succeeded on this context and the
comment was claimed without any attachment. -/
def IgnoreClaim (ctx : Ctx) : Prop :=
  ∃ r, handleIgnoreComments ctx = some r ∧ r.claimed = true

/-- A handler that, whenever it returns normally, has committed exactly one
append if it claimed the comment and none if it declined. -/
def ShapeOK (h : Ctx → Option HRes) : Prop :=
  ∀ ctx r, h ctx = some r →
    (r.claimed = true ∧ r.atts.length = 1) ∨ (r.claimed = false ∧ r.atts = [])

/-- A handler that commits at most one append, the zero-append claim being
possible only for the ignore handler's guard. -/
def ShapeAtMostOne (h : Ctx → Option HRes) : Prop :=
  ∀ ctx r, h ctx = some r →
    (r.claimed = true ∧ (r.atts.length = 1 ∨ (r.atts = [] ∧ IgnoreClaim ctx))) ∨
    (r.claimed = false ∧ r.atts = [])

/-- Modelled from the spec (§4.4): the default policy the attachment driver
(outside this source file) applies to a remaining-class comment no chain
rule claims — dangling on the enclosing node, worst case the tree root. -/
def remainingDefaultPolicy (ctx : Ctx) : Attachment :=
  .dangling (ctx.enclosingNode.getD ctx.ast) none

/-- The specification's wording of the regular expression `/@type\b/`: the
text contains an occurrence of `@type` whose end falls on a word
boundary. -/
def containsAtTypeWithBoundary (cs : List Char) : Prop :=
  ∃ l r, cs = l ++ ('@' :: 't' :: 'y' :: 'p' :: 'e' :: r) ∧
    (r = [] ∨ ∃ c r2, r = c :: r2 ∧ isWordChar c = false)

/-- The decision table of the between-consequent-and-alternate case of
`handleIfStatementComments`, as the specification words it: trailing on a
block consequent in cuddled style, dangling on the consequent with the
same-line marker for a same-line single-line comment, dangling on the
conditional otherwise. -/
def ifBetweenDecision (g : GlobalOptions) (ctx : Ctx) (p e : Nat) : Attachment :=
  if (ctx.tree p).type_ = "BlockStatement" ∧ g.breakBeforeElse = false then
    .trailing p
  else if (ctx.comment.ctype = "SingleLine" ∨ ctx.comment.startLine = ctx.comment.endLine) ∧
      ctx.comment.startLine = (ctx.tree p).startLine then
    .dangling p (some markerForIfWithoutBlockAndSameLineComment)
  else
    .dangling e none

/-! ## Concrete inputs for witnesses and counterexamples -/

/-- A source text whose skip query is the identity: the next
non-whitespace, non-comment character is the character directly at the
queried position. -/
def mkText (s : String) : SourceText :=
  ⟨s.data, fun p => p, fun _ => false⟩

/-- The empty source text. -/
def emptyText : SourceText :=
  mkText ""

/-- A finite arena: listed indices resolve to the listed data, all other
indices to default node data. -/
def treeOf (l : List (Nat × NodeData)) : Arena :=
  fun n => (((l.find? (fun x => x.1 == n)).map (fun x => x.2)).getD {})

/-- A plain line comment with the given text and layout. -/
def lineComment (v : String) (s e sl el : Nat) : Comment :=
  ⟨"Line", v, s, e, sl, el, false⟩

/-- A plain block comment with the given text and layout. -/
def blockComment (v : String) (s e sl el : Nat) : Comment :=
  ⟨"CommentBlock", v, s, e, sl, el, false⟩

/-- The module-level options with `breakBeforeElse` unset. -/
def goFalse : GlobalOptions := ⟨false⟩

/-- The module-level options with `breakBeforeElse` set. -/
def goTrue : GlobalOptions := ⟨true⟩

/-- A prettier-ignore comment sitting on a mapped type whose type parameter
has a constraint: the guard of `handleIgnoreComments`. -/
def ctxIgnore : Ctx :=
  { comment := lineComment "prettier-ignore" 0 17 1 1
    enclosingNode := some 1
    followingNode := some 2
    tree := treeOf [(1, { type_ := "TSMappedType" }),
                    (2, { type_ := "TSTypeParameter", constraint := some 3 })]
    text := emptyText }

/-- A context with no preceding, enclosing or following node at all. -/
def ctxAbsent : Ctx :=
  { comment := lineComment "c" 0 4 1 1
    tree := treeOf []
    text := emptyText }

/-- An end-of-line comment inside a test-less switch case with no following
node. -/
def ctxSwitchAbsent : Ctx :=
  { comment := lineComment "c" 0 4 1 1
    enclosingNode := some 1
    tree := treeOf [(1, { type_ := "SwitchCase" })]
    text := emptyText }

/-- A prettier-ignore comment inside a union type with no following
node. -/
def ctxUnionAbsent : Ctx :=
  { comment := lineComment "prettier-ignore" 0 18 1 1
    enclosingNode := some 1
    tree := treeOf [(1, { type_ := "TSUnionType", types := [2, 3] })]
    text := emptyText }

/-- The arena for `if (1) { x; } … else { y; }`: if-statement 1 with block
consequent 2 (starting on line 1, containing statement 4) and block
alternate 3. -/
def treeIfElse : Arena :=
  treeOf [(1, { type_ := "IfStatement", startLine := 1, consequent := some 2,
                alternate := some 3, test := some 5 }),
          (2, { type_ := "BlockStatement", startLine := 1, bodyList := some [4] }),
          (3, { type_ := "BlockStatement", startLine := 3, bodyList := some [] }),
          (4, { type_ := "ExpressionStatement", startLine := 1 }),
          (5, { type_ := "Literal", startLine := 1 })]

/-- A comment on its own line 2 between the consequent block and the
alternate of `treeIfElse`. -/
def ctxElse : Ctx :=
  { comment := lineComment "c" 14 18 2 2
    precedingNode := some 2
    enclosingNode := some 1
    followingNode := some 3
    tree := treeIfElse
    text := emptyText }

/-- The arena for `if (cond) expr1; // c` + `else …`: blockless consequent
2 on the same line as the comment. -/
def treeIfBlockless : Arena :=
  treeOf [(1, { type_ := "IfStatement", startLine := 1, consequent := some 2,
                alternate := some 3, test := some 5 }),
          (2, { type_ := "ExpressionStatement", startLine := 1 }),
          (3, { type_ := "ExpressionStatement", startLine := 2 }),
          (5, { type_ := "Identifier", startLine := 1 })]

/-- A same-line single-line comment between a blockless consequent and the
alternate. -/
def ctxElseMarker : Ctx :=
  { comment := lineComment "c" 17 21 1 1
    precedingNode := some 2
    enclosingNode := some 1
    followingNode := some 3
    tree := treeIfBlockless
    text := emptyText }

/-- The source text `if (a /*c*/) {}`. -/
def textIfParen : SourceText :=
  mkText "if (a /*c*/) \x7b\x7d"

/-- The arena for `if (a /*c*/) {}`: if-statement 1, condition expression
2, block consequent 3. -/
def treeIfParen : Arena :=
  treeOf [(1, { type_ := "IfStatement", startPos := 0, endPos := 15,
                consequent := some 3, test := some 2 }),
          (2, { type_ := "Identifier", startPos := 4, endPos := 5 }),
          (3, { type_ := "BlockStatement", startPos := 13, endPos := 15,
                bodyList := some [] })]

/-- The comment context for `/*c*/` in `if (a /*c*/) {}`: the next
character after the comment is the condition's closing parenthesis. -/
def ctxIfParen : Ctx :=
  { comment := blockComment "c" 6 11 1 1
    precedingNode := some 2
    enclosingNode := some 1
    followingNode := some 3
    tree := treeIfParen
    text := textIfParen }

/-- The comment context for `/*c*/` in `while (a /*c*/) {}`. -/
def ctxWhileParen : Ctx :=
  { comment := blockComment "c" 9 14 1 1
    precedingNode := some 2
    enclosingNode := some 1
    followingNode := some 3
    tree := treeOf [(1, { type_ := "WhileStatement", bodyNode := some 3, test := some 2 }),
                    (2, { type_ := "Identifier", startPos := 7, endPos := 8 }),
                    (3, { type_ := "BlockStatement", bodyList := some [] })]
    text := mkText "while (a /*c*/) \x7b\x7d" }

/-- An own-line comment before the block body of an if statement whose
block starts with an empty statement: routing should land on the first
non-empty statement 5. -/
def ctxIfBlock : Ctx :=
  { comment := lineComment "c" 8 12 1 1
    precedingNode := some 2
    enclosingNode := some 1
    followingNode := some 3
    tree := treeOf [(1, { type_ := "IfStatement", consequent := some 3, test := some 2 }),
                    (2, { type_ := "Identifier" }),
                    (3, { type_ := "BlockStatement", bodyList := some [4, 5] }),
                    (4, { type_ := "EmptyStatement" }),
                    (5, { type_ := "ExpressionStatement" })]
    text := emptyText }

/-- A comment before the block body of a while statement. -/
def ctxWhileBlock : Ctx :=
  { comment := lineComment "c" 10 14 1 1
    precedingNode := some 2
    enclosingNode := some 1
    followingNode := some 3
    tree := treeOf [(1, { type_ := "WhileStatement", bodyNode := some 3, test := some 2 }),
                    (2, { type_ := "Identifier" }),
                    (3, { type_ := "BlockStatement", bodyList := some [4, 5] }),
                    (4, { type_ := "EmptyStatement" }),
                    (5, { type_ := "ExpressionStatement" })]
    text := emptyText }

/-- A comment before the body block of a try statement. -/
def ctxTryBlock : Ctx :=
  { comment := lineComment "c" 4 8 1 1
    enclosingNode := some 1
    followingNode := some 3
    tree := treeOf [(1, { type_ := "TryStatement", bodyNode := some 3 }),
                    (3, { type_ := "BlockStatement", bodyList := some [4, 5] }),
                    (4, { type_ := "EmptyStatement" }),
                    (5, { type_ := "ExpressionStatement" })]
    text := emptyText }

/-- A comment before an empty class body: routing should fall back to a
dangling comment on the body. -/
def ctxClassBody : Ctx :=
  { comment := lineComment "c" 8 12 1 1
    enclosingNode := some 1
    followingNode := some 3
    tree := treeOf [(1, { type_ := "ClassDeclaration", bodyNode := some 3 }),
                    (3, { type_ := "ClassBody", bodyList := some [] })]
    text := emptyText }

/-- The comment context for `/* none */` in `foo(/* none */)`: a call with
an empty argument list. -/
def ctxEmptyCall : Ctx :=
  { comment := blockComment " none " 4 14 1 1
    precedingNode := some 2
    enclosingNode := some 1
    followingNode := none
    tree := treeOf [(1, { type_ := "CallExpression", callee := some 2 }),
                    (2, { type_ := "Identifier", startPos := 0, endPos := 3 })]
    text := mkText "foo(/* none */)" }

/-- A comment in the empty parameter list of a class method definition:
the decision lands on the definition's function value 2. -/
def ctxMethodEmpty : Ctx :=
  { comment := blockComment " none " 6 16 1 1
    enclosingNode := some 1
    tree := treeOf [(1, { type_ := "MethodDefinition", value := some 2 }),
                    (2, { type_ := "FunctionExpression" })]
    text := mkText "  foo(/* none */) \x7b\x7d" }

/-- The source text `(a, b/*c*/) => x`. -/
def textArrow : SourceText :=
  mkText "(a, b/*c*/) => x"

/-- The comment context for `/*c*/` in `(a, b/*c*/) => x`: remaining
placement, enclosing arrow function 1, parameters 2 and 3, body 4. -/
def ctxArrow : Ctx :=
  { comment := blockComment "c" 5 10 1 1
    precedingNode := some 3
    enclosingNode := some 1
    followingNode := some 4
    tree := treeOf [(0, { type_ := "Program", bodyList := some [9] }),
                    (1, { type_ := "ArrowFunctionExpression", params := [2, 3],
                          bodyNode := some 4 }),
                    (2, { type_ := "Identifier", startPos := 1, endPos := 2 }),
                    (3, { type_ := "Identifier", startPos := 4, endPos := 5 }),
                    (4, { type_ := "Identifier", startPos := 15, endPos := 16 }),
                    (9, { type_ := "ExpressionStatement", startPos := 0, endPos := 16 })]
    text := textArrow
    ast := 0 }

/-- The comment context for `/*c*/` in `(a, b) /*c*/ => x`: here the next
characters after the comment are `=>`. -/
def ctxArrowBefore : Ctx :=
  { comment := blockComment "c" 7 12 1 1
    precedingNode := some 3
    enclosingNode := some 1
    followingNode := some 4
    tree := treeOf [(0, { type_ := "Program", bodyList := some [9] }),
                    (1, { type_ := "ArrowFunctionExpression", params := [2, 3],
                          bodyNode := some 4 }),
                    (2, { type_ := "Identifier", startPos := 1, endPos := 2 }),
                    (3, { type_ := "Identifier", startPos := 4, endPos := 5 }),
                    (4, { type_ := "Identifier", startPos := 16, endPos := 17 }),
                    (9, { type_ := "ExpressionStatement", startPos := 0, endPos := 17 })]
    text := ⟨"(a, b) /*c*/ => x".data, fun p => if p == 12 then 13 else p,
             fun _ => false⟩
    ast := 0 }

/-- An end-of-line line comment inside a test-less switch case followed by
a block whose first statement is 4. -/
def ctxSwitchLine : Ctx :=
  { comment := lineComment "c" 20 24 1 1
    enclosingNode := some 1
    followingNode := some 3
    tree := treeOf [(0, { type_ := "Program", bodyList := some [7] }),
                    (1, { type_ := "SwitchCase" }),
                    (3, { type_ := "BlockStatement", bodyList := some [4] }),
                    (4, { type_ := "ExpressionStatement" }),
                    (7, { type_ := "SwitchStatement" })]
    text := emptyText
    ast := 0 }

/-- A closure type-cast comment (`/** @type x */`) with a following
node. -/
def ctxTypeCast : Ctx :=
  { comment := blockComment "* @type x " 0 14 1 1
    followingNode := some 5
    tree := treeOf [(5, { type_ := "Identifier" })]
    text := emptyText }

/-! ## Helper lemmas: every handler commits one append when claiming, none
when declining -/

theorem shape_handleClosureTypeCastComments : ShapeOK handleClosureTypeCastComments := by
  intro ctx r h
  simp only [handleClosureTypeCastComments] at h
  repeat' split at h
  all_goals simp_all [Option.map_eq_some']
  all_goals first
  | (subst h; simp)
  | (obtain ⟨a, ha, rfl⟩ := h; simp)

theorem shape_handleIfStatementComments (g : GlobalOptions) :
    ShapeOK (handleIfStatementComments g) := by
  intro ctx r h
  simp only [handleIfStatementComments] at h
  repeat' split at h
  all_goals simp_all [Option.map_eq_some']
  all_goals first
  | (subst h; simp)
  | (obtain ⟨a, ha, rfl⟩ := h; simp)

theorem shape_handleWhileComments : ShapeOK handleWhileComments := by
  intro ctx r h
  simp only [handleWhileComments] at h
  repeat' split at h
  all_goals simp_all [Option.map_eq_some']
  all_goals first
  | (subst h; simp)
  | (obtain ⟨a, ha, rfl⟩ := h; simp)

theorem shape_handleTryStatementComments : ShapeOK handleTryStatementComments := by
  intro ctx r h
  simp only [handleTryStatementComments] at h
  repeat' split at h
  all_goals simp_all [Option.map_eq_some']
  all_goals first
  | (subst h; simp)
  | (obtain ⟨a, ha, rfl⟩ := h; simp)

theorem shape_handleMemberExpressionComments : ShapeOK handleMemberExpressionComments := by
  intro ctx r h
  simp only [handleMemberExpressionComments] at h
  repeat' split at h
  all_goals simp_all [Option.map_eq_some']
  all_goals first
  | (subst h; simp)
  | (obtain ⟨a, ha, rfl⟩ := h; simp)

theorem shape_handleConditionalExpressionComments :
    ShapeOK handleConditionalExpressionComments := by
  intro ctx r h
  simp only [handleConditionalExpressionComments] at h
  repeat' split at h
  all_goals simp_all [Option.map_eq_some']
  all_goals first
  | (subst h; simp)
  | (obtain ⟨a, ha, rfl⟩ := h; simp)

theorem shape_handleObjectPropertyAssignment : ShapeOK handleObjectPropertyAssignment := by
  intro ctx r h
  simp only [handleObjectPropertyAssignment] at h
  repeat' split at h
  all_goals simp_all [Option.map_eq_some']
  all_goals first
  | (subst h; simp)
  | (obtain ⟨a, ha, rfl⟩ := h; simp)

theorem shape_handleClassComments : ShapeOK handleClassComments := by
  intro ctx r h
  simp only [handleClassComments, classPropDecision] at h
  repeat' split at h
  all_goals simp_all [Option.map_eq_some']
  all_goals first
  | (subst h; simp)
  | (obtain ⟨a, ha, rfl⟩ := h; simp)

theorem shape_handleMethodNameComments : ShapeOK handleMethodNameComments := by
  intro ctx r h
  simp only [handleMethodNameComments] at h
  repeat' split at h
  all_goals simp_all [Option.map_eq_some']
  all_goals first
  | (subst h; simp)
  | (obtain ⟨a, ha, rfl⟩ := h; simp)

theorem shape_handleFunctionNameComments : ShapeOK handleFunctionNameComments := by
  intro ctx r h
  simp only [handleFunctionNameComments] at h
  repeat' split at h
  all_goals simp_all [Option.map_eq_some']
  all_goals first
  | (subst h; simp)
  | (obtain ⟨a, ha, rfl⟩ := h; simp)

theorem shape_handleCommentAfterArrowParams : ShapeOK handleCommentAfterArrowParams := by
  intro ctx r h
  simp only [handleCommentAfterArrowParams] at h
  repeat' split at h
  all_goals simp_all [Option.map_eq_some']
  all_goals first
  | (subst h; simp)
  | (obtain ⟨a, ha, rfl⟩ := h; simp)

theorem shape_handleCommentInEmptyParens : ShapeOK handleCommentInEmptyParens := by
  intro ctx r h
  simp only [handleCommentInEmptyParens] at h
  repeat' split at h
  all_goals simp_all [Option.map_eq_some']
  all_goals first
  | (subst h; simp)
  | (obtain ⟨a, ha, rfl⟩ := h; simp)

theorem shape_handleLastFunctionArgComments : ShapeOK handleLastFunctionArgComments := by
  intro ctx r h
  simp only [handleLastFunctionArgComments] at h
  repeat' split at h
  all_goals simp_all [Option.map_eq_some']
  all_goals first
  | (subst h; simp)
  | (obtain ⟨a, ha, rfl⟩ := h; simp)

theorem shape_handleLabeledStatementComments : ShapeOK handleLabeledStatementComments := by
  intro ctx r h
  simp only [handleLabeledStatementComments] at h
  repeat' split at h
  all_goals simp_all [Option.map_eq_some']
  all_goals first
  | (subst h; simp)
  | (obtain ⟨a, ha, rfl⟩ := h; simp)

theorem shape_handleBreakAndContinueStatementComments :
    ShapeOK handleBreakAndContinueStatementComments := by
  intro ctx r h
  simp only [handleBreakAndContinueStatementComments] at h
  repeat' split at h
  all_goals simp_all [Option.map_eq_some']
  all_goals first
  | (subst h; simp)
  | (obtain ⟨a, ha, rfl⟩ := h; simp)

theorem shape_handleCallExpressionComments : ShapeOK handleCallExpressionComments := by
  intro ctx r h
  simp only [handleCallExpressionComments] at h
  repeat' split at h
  all_goals simp_all [Option.map_eq_some']
  all_goals first
  | (subst h; simp)
  | (obtain ⟨a, ha, rfl⟩ := h; simp)

theorem shape_handleUnionTypeComments : ShapeOK handleUnionTypeComments := by
  intro ctx r h
  simp only [handleUnionTypeComments, handleUnionTypeCommentsFallthrough] at h
  repeat' split at h
  all_goals simp_all [Option.map_eq_some']
  all_goals first
  | (subst h; simp)
  | (obtain ⟨a, ha, rfl⟩ := h; simp)

theorem shape_handlePropertyComments : ShapeOK handlePropertyComments := by
  intro ctx r h
  simp only [handlePropertyComments] at h
  repeat' split at h
  all_goals simp_all [Option.map_eq_some']
  all_goals first
  | (subst h; simp)
  | (obtain ⟨a, ha, rfl⟩ := h; simp)

theorem shape_handleOnlyComments : ShapeOK handleOnlyComments := by
  intro ctx r h
  simp only [handleOnlyComments, handleOnlyCommentsThird] at h
  repeat' split at h
  all_goals simp_all [Option.map_eq_some']
  all_goals first
  | (subst h; simp)
  | (obtain ⟨a, ha, rfl⟩ := h; simp)

theorem shape_handleForComments : ShapeOK handleForComments := by
  intro ctx r h
  simp only [handleForComments] at h
  repeat' split at h
  all_goals simp_all [Option.map_eq_some']
  all_goals first
  | (subst h; simp)
  | (obtain ⟨a, ha, rfl⟩ := h; simp)

theorem shape_handleModuleSpecifiersComments : ShapeOK handleModuleSpecifiersComments := by
  intro ctx r h
  simp only [handleModuleSpecifiersComments] at h
  repeat' split at h
  all_goals simp_all [Option.map_eq_some']
  all_goals first
  | (subst h; simp)
  | (obtain ⟨a, ha, rfl⟩ := h; simp)

theorem shape_handleAssignmentPatternComments : ShapeOK handleAssignmentPatternComments := by
  intro ctx r h
  simp only [handleAssignmentPatternComments] at h
  repeat' split at h
  all_goals simp_all [Option.map_eq_some']
  all_goals first
  | (subst h; simp)
  | (obtain ⟨a, ha, rfl⟩ := h; simp)

theorem shape_handleVariableDeclaratorComments : ShapeOK handleVariableDeclaratorComments := by
  intro ctx r h
  simp only [handleVariableDeclaratorComments] at h
  repeat' split at h
  all_goals simp_all [Option.map_eq_some']
  all_goals first
  | (subst h; simp)
  | (obtain ⟨a, ha, rfl⟩ := h; simp)

theorem shape_handleTSFunctionTrailingComments : ShapeOK handleTSFunctionTrailingComments := by
  intro ctx r h
  simp only [handleTSFunctionTrailingComments] at h
  repeat' split at h
  all_goals simp_all [Option.map_eq_some']
  all_goals first
  | (subst h; simp)
  | (obtain ⟨a, ha, rfl⟩ := h; simp)

theorem shape_handleTSMappedTypeComments : ShapeOK handleTSMappedTypeComments := by
  intro ctx r h
  simp only [handleTSMappedTypeComments] at h
  repeat' split at h
  all_goals simp_all [Option.map_eq_some']
  all_goals first
  | (subst h; simp)
  | (obtain ⟨a, ha, rfl⟩ := h; simp)

theorem shape_handleSwitchDefaultCaseComments : ShapeOK handleSwitchDefaultCaseComments := by
  intro ctx r h
  simp only [handleSwitchDefaultCaseComments] at h
  repeat' split at h
  all_goals simp_all [Option.map_eq_some']
  all_goals first
  | (subst h; simp)
  | (obtain ⟨a, ha, rfl⟩ := h; simp)

theorem shapeOK_atMostOne (h : Ctx → Option HRes) (hs : ShapeOK h) : ShapeAtMostOne h := by
  intro ctx r hr
  rcases hs ctx r hr with ⟨h1, h2⟩ | ⟨h1, h2⟩
  · exact Or.inl ⟨h1, Or.inl h2⟩
  · exact Or.inr ⟨h1, h2⟩

theorem shapeAMO_handleIgnoreComments : ShapeAtMostOne handleIgnoreComments := by
  intro ctx r h
  have h' := h
  simp only [handleIgnoreComments] at h
  repeat' split at h
  all_goals (injection h with h; subst h)
  all_goals simp
  exact ⟨_, h', rfl⟩

theorem runChain_atMostOne :
    ∀ (hs : List (Ctx → Option HRes)), (∀ h ∈ hs, ShapeAtMostOne h) →
      ∀ ctx r, runChain hs ctx = some r →
        (r.claimed = true → r.atts.length = 1 ∨ (r.atts = [] ∧ IgnoreClaim ctx)) ∧
        (r.claimed = false → r.atts = []) := by
  intro hs
  induction hs with
  | nil =>
    intro _ ctx r h
    simp only [runChain] at h
    injection h with h
    subst h
    simp
  | cons hd tl ih =>
    intro H ctx r h
    have Hhd := H hd (List.mem_cons_self _ _)
    have Htl : ∀ h ∈ tl, ShapeAtMostOne h := fun f hm => H f (List.mem_cons_of_mem _ hm)
    simp only [runChain] at h
    cases hhd : hd ctx with
    | none => rw [hhd] at h; exact absurd h (by simp)
    | some r1 =>
      rw [hhd] at h
      dsimp only at h
      by_cases hc : r1.claimed = true
      · rw [if_pos hc] at h
        injection h with h
        subst h
        rcases Hhd ctx r1 hhd with ⟨_, h2⟩ | ⟨h1, _⟩
        · exact ⟨fun _ => h2, fun hf => absurd hc (by simp [hf])⟩
        · exact absurd hc (by simp [h1])
      · rw [if_neg hc] at h
        have hr1 : r1.atts = [] := by
          rcases Hhd ctx r1 hhd with ⟨h1, _⟩ | ⟨_, h2⟩
          · exact absurd h1 hc
          · exact h2
        cases hrc : runChain tl ctx with
        | none => rw [hrc] at h; exact absurd h (by simp)
        | some r2 =>
          rw [hrc] at h
          injection h with h
          subst h
          obtain ⟨ih1, ih2⟩ := ih Htl ctx r2 hrc
          refine ⟨fun ht => ?_, fun hf => ?_⟩
          · simpa [hr1] using ih1 ht
          · simp [hr1, ih2 hf]

/-- C1 (amended): whenever one of the three chain entry points returns,
a claimed comment has exactly one committed append — except when the claim
came from the guard of `handleIgnoreComments`, which claims after only
setting ignore flags — and a declined comment has no append at all. -/
theorem chain_attachment_discipline :
    ∀ (g : GlobalOptions) (ctx : Ctx) (r : HRes),
      (handleOwnLineComment g ctx = some r ∨ handleEndOfLineComment g ctx = some r ∨
        handleRemainingComment g ctx = some r) →
      (r.claimed = true → r.atts.length = 1 ∨ (r.atts = [] ∧ IgnoreClaim ctx)) ∧
      (r.claimed = false → r.atts = []) := by
  intro g ctx r hr
  rcases hr with h | h | h
  · simp only [handleOwnLineComment] at h
    refine runChain_atMostOne _ ?_ ctx r h
    intro f hf
    simp only [List.mem_cons, List.not_mem_nil, or_false] at hf
    rcases hf with rfl | rfl | rfl | rfl | rfl | rfl | rfl | rfl | rfl | rfl | rfl | rfl | rfl | rfl | rfl
    · exact shapeAMO_handleIgnoreComments
    · exact shapeOK_atMostOne _ shape_handleLastFunctionArgComments
    · exact shapeOK_atMostOne _ shape_handleMemberExpressionComments
    · exact shapeOK_atMostOne _ (shape_handleIfStatementComments g)
    · exact shapeOK_atMostOne _ shape_handleWhileComments
    · exact shapeOK_atMostOne _ shape_handleTryStatementComments
    · exact shapeOK_atMostOne _ shape_handleClassComments
    · exact shapeOK_atMostOne _ shape_handleForComments
    · exact shapeOK_atMostOne _ shape_handleUnionTypeComments
    · exact shapeOK_atMostOne _ shape_handleOnlyComments
    · exact shapeOK_atMostOne _ shape_handleModuleSpecifiersComments
    · exact shapeOK_atMostOne _ shape_handleAssignmentPatternComments
    · exact shapeOK_atMostOne _ shape_handleMethodNameComments
    · exact shapeOK_atMostOne _ shape_handleLabeledStatementComments
    · exact shapeOK_atMostOne _ shape_handleBreakAndContinueStatementComments
  · simp only [handleEndOfLineComment] at h
    refine runChain_atMostOne _ ?_ ctx r h
    intro f hf
    simp only [List.mem_cons, List.not_mem_nil, or_false] at hf
    rcases hf with rfl | rfl | rfl | rfl | rfl | rfl | rfl | rfl | rfl | rfl | rfl | rfl | rfl | rfl | rfl
    · exact shapeOK_atMostOne _ shape_handleClosureTypeCastComments
    · exact shapeOK_atMostOne _ shape_handleLastFunctionArgComments
    · exact shapeOK_atMostOne _ shape_handleConditionalExpressionComments
    · exact shapeOK_atMostOne _ shape_handleModuleSpecifiersComments
    · exact shapeOK_atMostOne _ (shape_handleIfStatementComments g)
    · exact shapeOK_atMostOne _ shape_handleWhileComments
    · exact shapeOK_atMostOne _ shape_handleTryStatementComments
    · exact shapeOK_atMostOne _ shape_handleClassComments
    · exact shapeOK_atMostOne _ shape_handleLabeledStatementComments
    · exact shapeOK_atMostOne _ shape_handleCallExpressionComments
    · exact shapeOK_atMostOne _ shape_handlePropertyComments
    · exact shapeOK_atMostOne _ shape_handleOnlyComments
    · exact shapeOK_atMostOne _ shape_handleVariableDeclaratorComments
    · exact shapeOK_atMostOne _ shape_handleBreakAndContinueStatementComments
    · exact shapeOK_atMostOne _ shape_handleSwitchDefaultCaseComments
  · simp only [handleRemainingComment] at h
    refine runChain_atMostOne _ ?_ ctx r h
    intro f hf
    simp only [List.mem_cons, List.not_mem_nil, or_false] at hf
    rcases hf with rfl | rfl | rfl | rfl | rfl | rfl | rfl | rfl | rfl | rfl | rfl | rfl
    · exact shapeAMO_handleIgnoreComments
    · exact shapeOK_atMostOne _ (shape_handleIfStatementComments g)
    · exact shapeOK_atMostOne _ shape_handleWhileComments
    · exact shapeOK_atMostOne _ shape_handleObjectPropertyAssignment
    · exact shapeOK_atMostOne _ shape_handleCommentInEmptyParens
    · exact shapeOK_atMostOne _ shape_handleMethodNameComments
    · exact shapeOK_atMostOne _ shape_handleOnlyComments
    · exact shapeOK_atMostOne _ shape_handleCommentAfterArrowParams
    · exact shapeOK_atMostOne _ shape_handleFunctionNameComments
    · exact shapeOK_atMostOne _ shape_handleTSMappedTypeComments
    · exact shapeOK_atMostOne _ shape_handleBreakAndContinueStatementComments
    · exact shapeOK_atMostOne _ shape_handleTSFunctionTrailingComments

/-- C1 counterexample: on a prettier-ignore comment inside a mapped type
with a constrained type parameter, the own-line chain returns true while
committing zero attachments — the claim's "exactly one append when it
returns true" fails. -/
theorem chain_true_with_zero_attachments :
    handleOwnLineComment goFalse ctxIgnore =
      some ⟨true, [], [Effect.prettierIgnoreOn 1, Effect.unignoreComment]⟩ := by
  decide

/-- Witness for the amended C1 at a concrete claimed comment. -/
theorem chain_attachment_discipline_witness :
    handleOwnLineComment goFalse ctxIfParen = some ⟨true, [.trailing 2], []⟩ ∧
    ([Attachment.trailing 2].length = 1 ∨
      ([Attachment.trailing 2] = [] ∧ IgnoreClaim ctxIfParen)) :=
  ⟨by decide,
   (chain_attachment_discipline goFalse ctxIfParen ⟨true, [.trailing 2], []⟩
     (Or.inl (by decide))).1 rfl⟩

/-! ## Helper lemmas: totality of the handlers -/

theorem absfc_isSome (t : Arena) (n : Nat) (h : hasStatementList t n) :
    (addBlockStatementFirstComment t n).isSome = true := by
  simp only [addBlockStatementFirstComment]
  split
  · rename_i heq
    rw [hasStatementList, heq] at h
    simp at h
  · split <;> simp

theorem abon_isSome (t : Arena) (n : Nat)
    (h : (t n).type_ = "BlockStatement" → hasStatementList t n) :
    (addBlockOrNotComment t n).isSome = true := by
  simp only [addBlockOrNotComment]
  split
  · exact absfc_isSome t n (h (by assumption))
  · simp

theorem total_handleClosureTypeCastComments (ctx : Ctx) :
    (handleClosureTypeCastComments ctx).isSome = true := by
  simp only [handleClosureTypeCastComments]
  repeat' split
  all_goals simp

theorem total_handleMemberExpressionComments (ctx : Ctx) :
    (handleMemberExpressionComments ctx).isSome = true := by
  simp only [handleMemberExpressionComments]
  repeat' split
  all_goals simp

theorem total_handleConditionalExpressionComments (ctx : Ctx) :
    (handleConditionalExpressionComments ctx).isSome = true := by
  simp only [handleConditionalExpressionComments]
  repeat' split
  all_goals simp

theorem total_handleClassComments (ctx : Ctx) (hwf : WFCtx ctx) :
    (handleClassComments ctx).isSome = true := by
  obtain ⟨hwe, hwff⟩ := hwf
  cases he : ctx.enclosingNode with
  | none => simp [handleClassComments, he]
  | some e =>
    simp only [handleClassComments, he]
    repeat' split
    all_goals simp_all [classPropDecision, isNonEmptyArray]
    · exact absfc_isSome _ _ (hwe.2.2.2.2.2.2.2.2 (by assumption) _ (by assumption))
    all_goals (repeat' split) <;> simp_all

theorem total_handleMethodNameComments (ctx : Ctx) :
    (handleMethodNameComments ctx).isSome = true := by
  simp only [handleMethodNameComments]
  repeat' split
  all_goals simp

theorem total_handleFunctionNameComments (ctx : Ctx) :
    (handleFunctionNameComments ctx).isSome = true := by
  simp only [handleFunctionNameComments]
  repeat' split
  all_goals simp

theorem total_handleCommentAfterArrowParams (ctx : Ctx) :
    (handleCommentAfterArrowParams ctx).isSome = true := by
  simp only [handleCommentAfterArrowParams]
  repeat' split
  all_goals simp

theorem total_handleLabeledStatementComments (ctx : Ctx) :
    (handleLabeledStatementComments ctx).isSome = true := by
  simp only [handleLabeledStatementComments]
  repeat' split
  all_goals simp

theorem total_handleBreakAndContinueStatementComments (ctx : Ctx) :
    (handleBreakAndContinueStatementComments ctx).isSome = true := by
  simp only [handleBreakAndContinueStatementComments]
  repeat' split
  all_goals simp

theorem total_handleCallExpressionComments (ctx : Ctx) :
    (handleCallExpressionComments ctx).isSome = true := by
  simp only [handleCallExpressionComments]
  repeat' split
  all_goals simp_all

theorem total_handlePropertyComments (ctx : Ctx) :
    (handlePropertyComments ctx).isSome = true := by
  simp only [handlePropertyComments]
  repeat' split
  all_goals simp

theorem total_handleForComments (ctx : Ctx) :
    (handleForComments ctx).isSome = true := by
  simp only [handleForComments]
  repeat' split
  all_goals simp

theorem total_handleModuleSpecifiersComments (ctx : Ctx) :
    (handleModuleSpecifiersComments ctx).isSome = true := by
  simp only [handleModuleSpecifiersComments]
  repeat' split
  all_goals simp

theorem total_handleAssignmentPatternComments (ctx : Ctx) :
    (handleAssignmentPatternComments ctx).isSome = true := by
  simp only [handleAssignmentPatternComments]
  repeat' split
  all_goals simp

theorem total_handleVariableDeclaratorComments (ctx : Ctx) :
    (handleVariableDeclaratorComments ctx).isSome = true := by
  simp only [handleVariableDeclaratorComments]
  repeat' split
  all_goals simp

theorem total_handleTSFunctionTrailingComments (ctx : Ctx) :
    (handleTSFunctionTrailingComments ctx).isSome = true := by
  simp only [handleTSFunctionTrailingComments]
  repeat' split
  all_goals simp

theorem total_handleIgnoreComments (ctx : Ctx) :
    (handleIgnoreComments ctx).isSome = true := by
  simp only [handleIgnoreComments]
  repeat' split
  all_goals simp

theorem total_handleTSMappedTypeComments (ctx : Ctx) :
    (handleTSMappedTypeComments ctx).isSome = true := by
  simp only [handleTSMappedTypeComments]
  repeat' split
  all_goals simp

theorem total_handleIfStatementComments (g : GlobalOptions) (ctx : Ctx)
    (hwf : WFCtx ctx) (hz : ¬ parenHazard ctx "IfStatement") :
    (handleIfStatementComments g ctx).isSome = true := by
  obtain ⟨hwe, hwff⟩ := hwf
  cases he : ctx.enclosingNode with
  | none => simp [handleIfStatementComments, he]
  | some e =>
    cases hf : ctx.followingNode with
    | none => simp [handleIfStatementComments, he, hf]
    | some f =>
      simp only [handleIfStatementComments, he, hf]
      repeat' split
      all_goals simp_all
      · exact hz ⟨by assumption, ⟨e, he, by assumption⟩, by simp [hf], by assumption⟩
      · obtain ⟨c, hc, _⟩ := hwe.1 (by assumption)
        simp_all
      · exact absfc_isSome _ _ (hwff.2.1 (by assumption))
      · obtain ⟨c, hc, _⟩ := hwff.1 (by assumption)
        simp_all
      · rename_i n heq
        obtain ⟨c, hc, hcb⟩ := hwff.1 (by assumption)
        rw [heq] at hc
        injection hc with hnc
        subst hnc
        exact abon_isSome _ _ hcb

theorem total_handleWhileComments (ctx : Ctx)
    (hwf : WFCtx ctx) (hz : ¬ parenHazard ctx "WhileStatement") :
    (handleWhileComments ctx).isSome = true := by
  obtain ⟨hwe, hwff⟩ := hwf
  cases he : ctx.enclosingNode with
  | none => simp [handleWhileComments, he]
  | some e =>
    cases hf : ctx.followingNode with
    | none => simp [handleWhileComments, he, hf]
    | some f =>
      simp only [handleWhileComments, he, hf]
      repeat' split
      all_goals simp_all
      · exact hz ⟨by assumption, ⟨e, he, by assumption⟩, by simp [hf], by assumption⟩
      · exact absfc_isSome _ _ (hwff.2.1 (by assumption))

theorem total_handleTryStatementComments (ctx : Ctx)
    (hwf : WFCtx ctx) (hz : ¬ tryFinalizerHazard ctx) :
    (handleTryStatementComments ctx).isSome = true := by
  obtain ⟨hwe, hwff⟩ := hwf
  cases he : ctx.enclosingNode with
  | none => simp [handleTryStatementComments, he]
  | some e =>
    cases hf : ctx.followingNode with
    | none => simp [handleTryStatementComments, he, hf]
    | some f =>
      simp only [handleTryStatementComments, he, hf]
      repeat' split
      all_goals simp_all
      · exact absfc_isSome _ _ (hwff.2.1 (by assumption))
      · exact hz ⟨f, hf, by assumption, by assumption⟩
      · exact abon_isSome _ _ (hwff.2.2.2.1 (by assumption) _ (by assumption))
      · obtain ⟨b, hb, _⟩ := hwff.2.2.1 (by assumption)
        simp_all
      · rename_i b heq
        obtain ⟨b2, hb2, hbb⟩ := hwff.2.2.1 (by assumption)
        rw [heq] at hb2
        injection hb2 with hbe
        subst hbe
        exact abon_isSome _ _ hbb

theorem total_handleObjectPropertyAssignment (ctx : Ctx) (hwf : WFCtx ctx) :
    (handleObjectPropertyAssignment ctx).isSome = true := by
  obtain ⟨hwe, _⟩ := hwf
  cases he : ctx.enclosingNode with
  | none => simp [handleObjectPropertyAssignment, he]
  | some e =>
    simp only [handleObjectPropertyAssignment, he]
    repeat' split
    all_goals simp_all [isObjectPropertyOpt]
    · obtain ⟨v, hv, _⟩ := hwe.2.2.2.2.2.1 (by tauto)
      simp_all
    · obtain ⟨v2, hv2, hleft⟩ := hwe.2.2.2.2.2.1 (by tauto)
      simp_all

theorem total_handleCommentInEmptyParens (ctx : Ctx) (hwf : WFCtx ctx) :
    (handleCommentInEmptyParens ctx).isSome = true := by
  obtain ⟨hwe, _⟩ := hwf
  cases he : ctx.enclosingNode with
  | none => simp [handleCommentInEmptyParens, he]
  | some e =>
    simp only [handleCommentInEmptyParens, he]
    repeat' split
    all_goals simp_all
    · obtain ⟨v, hv⟩ := Option.isSome_iff_exists.mp (hwe.2.2.2.2.2.2.1 (by tauto))
      simp_all

theorem total_handleLastFunctionArgComments (ctx : Ctx)
    (hwf : WFCtx ctx) (hz : ¬ anonFunctionHazard ctx) :
    (handleLastFunctionArgComments ctx).isSome = true := by
  obtain ⟨hwe, hwff⟩ := hwf
  cases he : ctx.enclosingNode with
  | none => simp [handleLastFunctionArgComments, he]
  | some e =>
    cases hf : ctx.followingNode with
    | none =>
      simp only [handleLastFunctionArgComments, he, hf]
      repeat' split
      all_goals simp
    | some f =>
      simp only [handleLastFunctionArgComments, he, hf]
      repeat' split
      all_goals simp_all [getFunctionParameters]
      · exact absfc_isSome _ _ (hwff.2.1 (by tauto))
      · rename_i hlast heq
        exact hz ⟨e, he, by tauto, by simpa using hlast, heq⟩
      · exact absfc_isSome _ _ (hwff.2.1 (by tauto))

theorem total_handleUnionTypeComments (ctx : Ctx)
    (hwf : WFCtx ctx) (hz : ¬ unionIgnoreHazard ctx) :
    (handleUnionTypeComments ctx).isSome = true := by
  obtain ⟨hwe, hwff⟩ := hwf
  cases he : ctx.enclosingNode with
  | none =>
    cases hf : ctx.followingNode with
    | none => simp [handleUnionTypeComments, handleUnionTypeCommentsFallthrough, he, hf]
    | some f =>
      simp only [handleUnionTypeComments, handleUnionTypeCommentsFallthrough, he, hf]
      repeat' split
      all_goals simp_all
      rename_i htypes _
      exact hwff.2.2.2.2.2.2.2.1 (by tauto) (by assumption)
  | some e =>
    cases hf : ctx.followingNode with
    | none =>
      simp only [handleUnionTypeComments, handleUnionTypeCommentsFallthrough, he, hf]
      repeat' split
      all_goals simp_all
      exact hz ⟨by assumption, hf, e, he, by tauto⟩
    | some f =>
      simp only [handleUnionTypeComments, handleUnionTypeCommentsFallthrough, he, hf]
      repeat' split
      all_goals simp_all
      rename_i htypes _
      exact hwff.2.2.2.2.2.2.2.1 (by tauto) (by assumption)

theorem total_handleOnlyComments (ctx : Ctx) (hwf : WFCtx ctx) :
    (handleOnlyComments ctx).isSome = true := by
  obtain ⟨hwe, hwff⟩ := hwf
  simp only [handleOnlyComments, handleOnlyCommentsThird]
  repeat' split
  all_goals simp_all
  all_goals first
  | (obtain ⟨l2, hl2⟩ := Option.isSome_iff_exists.mp (hwff.2.2.2.2.1 (by assumption))
     simp_all
     done)
  | (obtain ⟨l2, hl2⟩ := Option.isSome_iff_exists.mp (hwe.2.2.2.2.1 (by assumption))
     simp_all
     done)

theorem total_handleSwitchDefaultCaseComments (ctx : Ctx)
    (hwf : WFCtx ctx) (hz : ¬ switchDefaultHazard ctx) :
    (handleSwitchDefaultCaseComments ctx).isSome = true := by
  obtain ⟨hwe, hwff⟩ := hwf
  cases he : ctx.enclosingNode with
  | none => simp [handleSwitchDefaultCaseComments, he]
  | some e =>
    simp only [handleSwitchDefaultCaseComments, he]
    repeat' split
    all_goals simp_all
    · rename_i hguard heq
      exact hz ⟨heq, e, he, by tauto, by simp_all [Option.not_isSome_iff_eq_none]⟩
    · exact absfc_isSome _ _ (hwff.2.1 (by tauto))

/-- C2 (amended): on contexts whose nodes satisfy the parser-shape
invariants, every handler of the three chains either commits a decision or
declines and never raises — except at the dereference spots where the
source reads a property of an absent value: the if/while condition-paren
case with an absent preceding node, a following finalizer-less try
statement, a prettier-ignore comment in a union type with an absent
following node, an anonymous zero-parameter function declaration, and a
test-less switch case with an absent following node. -/
theorem handlers_total_outside_deref_spots (g : GlobalOptions) (ctx : Ctx)
    (hwf : WFCtx ctx) :
    (handleClosureTypeCastComments ctx).isSome = true ∧
    (¬ parenHazard ctx "IfStatement" → (handleIfStatementComments g ctx).isSome = true) ∧
    (¬ parenHazard ctx "WhileStatement" → (handleWhileComments ctx).isSome = true) ∧
    (¬ tryFinalizerHazard ctx → (handleTryStatementComments ctx).isSome = true) ∧
    (handleMemberExpressionComments ctx).isSome = true ∧
    (handleConditionalExpressionComments ctx).isSome = true ∧
    (handleObjectPropertyAssignment ctx).isSome = true ∧
    (handleClassComments ctx).isSome = true ∧
    (handleMethodNameComments ctx).isSome = true ∧
    (handleFunctionNameComments ctx).isSome = true ∧
    (handleCommentAfterArrowParams ctx).isSome = true ∧
    (handleCommentInEmptyParens ctx).isSome = true ∧
    (¬ anonFunctionHazard ctx → (handleLastFunctionArgComments ctx).isSome = true) ∧
    (handleLabeledStatementComments ctx).isSome = true ∧
    (handleBreakAndContinueStatementComments ctx).isSome = true ∧
    (handleCallExpressionComments ctx).isSome = true ∧
    (¬ unionIgnoreHazard ctx → (handleUnionTypeComments ctx).isSome = true) ∧
    (handlePropertyComments ctx).isSome = true ∧
    (handleOnlyComments ctx).isSome = true ∧
    (handleForComments ctx).isSome = true ∧
    (handleModuleSpecifiersComments ctx).isSome = true ∧
    (handleAssignmentPatternComments ctx).isSome = true ∧
    (handleVariableDeclaratorComments ctx).isSome = true ∧
    (handleTSFunctionTrailingComments ctx).isSome = true ∧
    (handleIgnoreComments ctx).isSome = true ∧
    (handleTSMappedTypeComments ctx).isSome = true ∧
    (¬ switchDefaultHazard ctx → (handleSwitchDefaultCaseComments ctx).isSome = true) :=
  ⟨total_handleClosureTypeCastComments ctx,
   fun hz => total_handleIfStatementComments g ctx hwf hz,
   fun hz => total_handleWhileComments ctx hwf hz,
   fun hz => total_handleTryStatementComments ctx hwf hz,
   total_handleMemberExpressionComments ctx,
   total_handleConditionalExpressionComments ctx,
   total_handleObjectPropertyAssignment ctx hwf,
   total_handleClassComments ctx hwf,
   total_handleMethodNameComments ctx,
   total_handleFunctionNameComments ctx,
   total_handleCommentAfterArrowParams ctx,
   total_handleCommentInEmptyParens ctx hwf,
   fun hz => total_handleLastFunctionArgComments ctx hwf hz,
   total_handleLabeledStatementComments ctx,
   total_handleBreakAndContinueStatementComments ctx,
   total_handleCallExpressionComments ctx,
   fun hz => total_handleUnionTypeComments ctx hwf hz,
   total_handlePropertyComments ctx,
   total_handleOnlyComments ctx hwf,
   total_handleForComments ctx,
   total_handleModuleSpecifiersComments ctx,
   total_handleAssignmentPatternComments ctx,
   total_handleVariableDeclaratorComments ctx,
   total_handleTSFunctionTrailingComments ctx,
   total_handleIgnoreComments ctx,
   total_handleTSMappedTypeComments ctx,
   fun hz => total_handleSwitchDefaultCaseComments ctx hwf hz⟩

/-- C2 counterexample: exactly the two handlers the claim names raise on
contexts with an absent following node instead of declining. -/
theorem named_handlers_raise_on_absent_following :
    handleSwitchDefaultCaseComments ctxSwitchAbsent = none ∧
    handleUnionTypeComments ctxUnionAbsent = none :=
  ⟨by decide, by decide⟩

/-- Witness for the amended C2 on a concrete well-formed context. -/
theorem handlers_total_outside_deref_spots_witness :
    WFCtx ctxAbsent ∧
    (handleIfStatementComments goFalse ctxAbsent).isSome = true ∧
    (handleSwitchDefaultCaseComments ctxAbsent).isSome = true := by
  have hwf : WFCtx ctxAbsent :=
    ⟨fun n hn => Option.noConfusion hn, fun n hn => Option.noConfusion hn⟩
  obtain ⟨_, hIf, _, _, _, _, _, _, _, _, _, _, _, _, _, _, _, _, _, _, _, _, _,
    _, _, _, hSwitch⟩ := handlers_total_outside_deref_spots goFalse ctxAbsent hwf
  refine ⟨hwf, hIf ?_, hSwitch ?_⟩
  · rintro ⟨_, ⟨e, he, _⟩, _, _⟩
    exact Option.noConfusion he
  · rintro ⟨_, e, he, _, _⟩
    exact Option.noConfusion he

/-- C3 counterexample: two runs on the same context — same text, tree,
comment and context configuration — produce different decisions when only
the module-level options object differs, so the cuddled-else behaviour
comes from the global options module. -/
theorem cuddled_else_depends_on_global_options :
    handleIfStatementComments goFalse ctxElse = some ⟨true, [.trailing 2], []⟩ ∧
    handleIfStatementComments goTrue ctxElse = some ⟨true, [.dangling 1 none], []⟩ :=
  ⟨by decide, by decide⟩

/-- C3 (amended): the chain entry points never read the context's
configuration — two contexts differing only in `options` get identical
results — so decisions are a function of text, tree, comment position and
the module-level options object instead. -/
theorem chains_ignore_context_configuration (g : GlobalOptions) (ctx : Ctx) (o : Config) :
    handleOwnLineComment g { ctx with options := o } = handleOwnLineComment g ctx ∧
    handleEndOfLineComment g { ctx with options := o } = handleEndOfLineComment g ctx ∧
    handleRemainingComment g { ctx with options := o } = handleRemainingComment g ctx := by
  obtain ⟨c, p, e, f, t, tx, oo, a, l⟩ := ctx
  exact ⟨rfl, rfl, rfl⟩

/-- C4: a comment inside the condition parentheses of an if or while
statement — next non-whitespace, non-comment character `)` — becomes a
trailing comment of the preceding node, the condition expression. -/
theorem paren_comment_trailing_on_condition (g : GlobalOptions) (ctx : Ctx) (e p : Nat)
    (he : ctx.enclosingNode = some e) (hp : ctx.precedingNode = some p)
    (hf : ctx.followingNode.isSome = true)
    (hc : getNextNonSpaceNonCommentCharacter ctx.text ctx.comment.endPos = ")") :
    ((ctx.tree e).type_ = "IfStatement" →
      handleIfStatementComments g ctx = some ⟨true, [.trailing p], []⟩) ∧
    ((ctx.tree e).type_ = "WhileStatement" →
      handleWhileComments ctx = some ⟨true, [.trailing p], []⟩) := by
  obtain ⟨f, hf2⟩ := Option.isSome_iff_exists.mp hf
  constructor <;> intro ht
  · simp [handleIfStatementComments, he, hp, hf2, ht, hc]
  · simp [handleWhileComments, he, hp, hf2, ht, hc]

/-- Witness for C4 at `if (a /*c*/) {}` and `while (a /*c*/) {}`. -/
theorem paren_comment_trailing_on_condition_witness :
    (ctxIfParen.tree 1).type_ = "IfStatement" ∧
    handleIfStatementComments goFalse ctxIfParen = some ⟨true, [.trailing 2], []⟩ ∧
    handleWhileComments ctxWhileParen = some ⟨true, [.trailing 2], []⟩ :=
  ⟨by decide,
   (paren_comment_trailing_on_condition goFalse ctxIfParen 1 2 (by decide) (by decide)
     (by decide) (by decide)).1 (by decide),
   (paren_comment_trailing_on_condition goFalse ctxWhileParen 1 2 (by decide) (by decide)
     (by decide) (by decide)).2 (by decide)⟩

/-- C5: a comment between an if-statement's consequent (the preceding
node) and its alternate (the following node) is attached by the
specification's decision table: trailing on a block consequent when the
configuration selects cuddled style, dangling on the consequent with the
same-line marker for a single-line comment starting on the consequent's
first line, dangling on the if statement otherwise. -/
theorem if_between_consequent_alternate (g : GlobalOptions) (ctx : Ctx) (e p f : Nat)
    (he : ctx.enclosingNode = some e) (ht : (ctx.tree e).type_ = "IfStatement")
    (hf : ctx.followingNode = some f)
    (hc : getNextNonSpaceNonCommentCharacter ctx.text ctx.comment.endPos ≠ ")")
    (hp : ctx.precedingNode = some p)
    (hcons : (ctx.tree e).consequent = some p)
    (halt : (ctx.tree e).alternate = some f) :
    handleIfStatementComments g ctx = some ⟨true, [ifBetweenDecision g ctx p e], []⟩ := by
  simp only [handleIfStatementComments, he, hf, hp]
  rw [if_neg (by simp [ht]), if_neg (by simpa using hc),
    if_pos (by simp [hcons, halt])]
  simp only [ifBetweenDecision]
  split_ifs with h1 h2
  all_goals simp_all
  all_goals try tauto
  all_goals omega

/-- Witness for C5: the three rows of the decision table at concrete
contexts. -/
theorem if_between_consequent_alternate_witness :
    (handleIfStatementComments goFalse ctxElse =
        some ⟨true, [ifBetweenDecision goFalse ctxElse 2 1], []⟩ ∧
      ifBetweenDecision goFalse ctxElse 2 1 = .trailing 2) ∧
    (handleIfStatementComments goTrue ctxElse =
        some ⟨true, [ifBetweenDecision goTrue ctxElse 2 1], []⟩ ∧
      ifBetweenDecision goTrue ctxElse 2 1 = .dangling 1 none) ∧
    (handleIfStatementComments goTrue ctxElseMarker =
        some ⟨true, [ifBetweenDecision goTrue ctxElseMarker 2 1], []⟩ ∧
      ifBetweenDecision goTrue ctxElseMarker 2 1 =
        .dangling 2 (some markerForIfWithoutBlockAndSameLineComment)) :=
  ⟨⟨if_between_consequent_alternate goFalse ctxElse 1 2 3 (by decide) (by decide)
      (by decide) (by decide) (by decide) (by decide) (by decide), by decide⟩,
   ⟨if_between_consequent_alternate goTrue ctxElse 1 2 3 (by decide) (by decide)
      (by decide) (by decide) (by decide) (by decide) (by decide), by decide⟩,
   ⟨if_between_consequent_alternate goTrue ctxElseMarker 1 2 3 (by decide) (by decide)
      (by decide) (by decide) (by decide) (by decide) (by decide), by decide⟩⟩

theorem find?_front_all_neg {α : Type} (p : α → Bool) (l1 l2 : List α)
    (h : ∀ x ∈ l1, p x = false) : (l1 ++ l2).find? p = l2.find? p := by
  induction l1 with
  | nil => simp
  | cons a l ih =>
    rw [List.cons_append, List.find?_cons_of_neg _ (by simp [h a (List.mem_cons_self a l)])]
    exact ih fun x hx => h x (List.mem_cons_of_mem _ hx)

/-- C6: a comment routed to a following block by the if/while/try/class
handlers becomes the leading comment of the block's first child statement
that is not an empty statement, or a dangling comment of the block when
every child is an empty statement; the routing conjuncts show each handler
delegating to that policy. -/
theorem block_comment_routing :
    (∀ (t : Arena) (n : Nat) (l : List Nat),
      ((t n).bodyList <|> (t n).properties) = some l →
      (∀ c ∈ l, (t c).type_ = "EmptyStatement") →
      addBlockStatementFirstComment t n = some (.dangling n none)) ∧
    (∀ (t : Arena) (n : Nat) (l1 : List Nat) (s : Nat) (l2 : List Nat),
      ((t n).bodyList <|> (t n).properties) = some (l1 ++ s :: l2) →
      (∀ c ∈ l1, (t c).type_ = "EmptyStatement") →
      (t s).type_ ≠ "EmptyStatement" →
      addBlockStatementFirstComment t n = some (.leading s)) ∧
    (∀ (g : GlobalOptions) (ctx : Ctx) (e f : Nat),
      ctx.enclosingNode = some e → (ctx.tree e).type_ = "IfStatement" →
      ctx.followingNode = some f →
      getNextNonSpaceNonCommentCharacter ctx.text ctx.comment.endPos ≠ ")" →
      ¬(ctx.precedingNode = (ctx.tree e).consequent ∧ some f = (ctx.tree e).alternate) →
      (ctx.tree f).type_ = "BlockStatement" →
      handleIfStatementComments g ctx =
        (addBlockStatementFirstComment ctx.tree f).map (fun a => ⟨true, [a], []⟩)) ∧
    (∀ (ctx : Ctx) (e f : Nat),
      ctx.enclosingNode = some e → (ctx.tree e).type_ = "WhileStatement" →
      ctx.followingNode = some f →
      getNextNonSpaceNonCommentCharacter ctx.text ctx.comment.endPos ≠ ")" →
      (ctx.tree f).type_ = "BlockStatement" →
      handleWhileComments ctx =
        (addBlockStatementFirstComment ctx.tree f).map (fun a => ⟨true, [a], []⟩)) ∧
    (∀ (ctx : Ctx) (e f : Nat),
      ctx.enclosingNode = some e → (ctx.tree e).type_ = "TryStatement" →
      ctx.followingNode = some f →
      (ctx.tree f).type_ = "BlockStatement" →
      handleTryStatementComments ctx =
        (addBlockStatementFirstComment ctx.tree f).map (fun a => ⟨true, [a], []⟩)) ∧
    (∀ (ctx : Ctx) (e f : Nat),
      ctx.enclosingNode = some e → classLike (ctx.tree e).type_ = true →
      (ctx.tree e).decorators = [] →
      ctx.followingNode = some f → (ctx.tree e).bodyNode = some f →
      handleClassComments ctx =
        (addBlockStatementFirstComment ctx.tree f).map (fun a => ⟨true, [a], []⟩)) := by
  refine ⟨?_, ?_, ?_, ?_, ?_, ?_⟩
  · intro t n l hl hall
    simp only [addBlockStatementFirstComment, hl]
    have hfind : l.find? (fun c => (t c).type_ != "EmptyStatement") = none := by
      rw [List.find?_eq_none]
      intro x hx
      simp [hall x hx]
    rw [hfind]
  · intro t n l1 s l2 hl hall hs
    simp only [addBlockStatementFirstComment, hl]
    rw [find?_front_all_neg _ l1 _ (fun x hx => by simp [hall x hx]),
      List.find?_cons_of_pos _ (by simpa using hs)]
  · intro g ctx e f he ht hf hc hnb hb
    simp only [handleIfStatementComments, he, hf]
    rw [if_neg (by simp [ht]), if_neg (by simpa using hc),
      if_neg (by simp only [Bool.and_eq_true, beq_iff_eq]; tauto), if_pos (by simp [hb])]
  · intro ctx e f he ht hf hc hb
    simp only [handleWhileComments, he, hf]
    rw [if_neg (by simp [ht]), if_neg (by simpa using hc), if_pos (by simp [hb])]
  · intro ctx e f he ht hf hb
    simp only [handleTryStatementComments, he, hf]
    rw [if_neg (by simp [ht]), if_neg (by simp [ht]), if_pos (by simp [hb])]
  · intro ctx e f he hcl hdec hf hb
    simp only [handleClassComments, he, hf]
    rw [if_neg (by simp [hcl]), if_neg (by simp [hdec, isNonEmptyArray]),
      if_pos (by simp [hb])]
    simp only [hb]

/-- Witness for C6: routing through each of the four handlers, landing on
the first non-empty statement or on the empty block. -/
theorem block_comment_routing_witness :
    (handleIfStatementComments goFalse ctxIfBlock = some ⟨true, [.leading 5], []⟩) ∧
    (handleWhileComments ctxWhileBlock = some ⟨true, [.leading 5], []⟩) ∧
    (handleTryStatementComments ctxTryBlock = some ⟨true, [.leading 5], []⟩) ∧
    (handleClassComments ctxClassBody = some ⟨true, [.dangling 3 none], []⟩) := by
  refine ⟨?_, ?_, ?_, ?_⟩
  · rw [block_comment_routing.2.2.1 goFalse ctxIfBlock 1 3 (by decide) (by decide)
      (by decide) (by decide) (by decide) (by decide)]
    decide
  · rw [block_comment_routing.2.2.2.1 ctxWhileBlock 1 3 (by decide) (by decide)
      (by decide) (by decide) (by decide)]
    decide
  · rw [block_comment_routing.2.2.2.2.1 ctxTryBlock 1 3 (by decide) (by decide)
      (by decide) (by decide)]
    decide
  · rw [block_comment_routing.2.2.2.2.2 ctxClassBody 1 3 (by decide) (by decide)
      (by decide) (by decide) (by decide)]
    decide

/-- C7: a comment whose next character is `)` inside an empty
parameter/argument list is dangling on the function-like or call-like
enclosing node; for a method definition with an empty parameter list, on
its function value. -/
theorem empty_parens_comment_dangling (ctx : Ctx) (e : Nat)
    (he : ctx.enclosingNode = some e)
    (hc : getNextNonSpaceNonCommentCharacter ctx.text ctx.comment.endPos = ")") :
    (((isRealFunctionLikeNode (ctx.tree e) = true ∧ getFunctionParameters ctx.tree e = []) ∨
        (isCallLikeExpression (ctx.tree e) = true ∧ getCallArguments ctx.tree e = [])) →
      handleCommentInEmptyParens ctx = some ⟨true, [.dangling e none], []⟩) ∧
    (∀ v, ((ctx.tree e).type_ = "MethodDefinition" ∨
        (ctx.tree e).type_ = "TSAbstractMethodDefinition") →
      (ctx.tree e).value = some v → getFunctionParameters ctx.tree v = [] →
      handleCommentInEmptyParens ctx = some ⟨true, [.dangling v none], []⟩) := by
  constructor
  · intro hcase
    simp only [handleCommentInEmptyParens, he]
    rw [if_neg (by simp [hc]), if_pos]
    simp only [Bool.or_eq_true, Bool.and_eq_true, List.isEmpty_iff]
    tauto
  · intro v htype hv hpar
    have hnotfn : isRealFunctionLikeNode (ctx.tree e) = false := by
      rcases htype with ht | ht <;> simp [isRealFunctionLikeNode, ht]
    have hnotcall : isCallLikeExpression (ctx.tree e) = false := by
      rcases htype with ht | ht <;> simp [isCallLikeExpression, ht]
    simp only [handleCommentInEmptyParens, he, hv]
    rw [if_neg (by simp [hc]), if_neg (by simp [hnotfn, hnotcall]),
      if_pos (by rcases htype with ht | ht <;> simp [ht]), if_pos (by simp [hpar])]

/-- Witness for C7 at `foo(/* none */)` and an empty method parameter
list. -/
theorem empty_parens_comment_dangling_witness :
    handleCommentInEmptyParens ctxEmptyCall = some ⟨true, [.dangling 1 none], []⟩ ∧
    handleCommentInEmptyParens ctxMethodEmpty = some ⟨true, [.dangling 2 none], []⟩ :=
  ⟨(empty_parens_comment_dangling ctxEmptyCall 1 (by decide) (by decide)).1
     (Or.inr ⟨by decide, by decide⟩),
   (empty_parens_comment_dangling ctxMethodEmpty 1 (by decide) (by decide)).2 2
     (Or.inl (by decide)) (by decide) (by decide)⟩

/-- C8 counterexample: for `(a, b/*c*/) => x` the remaining chain — and in
particular `handleCommentAfterArrowParams`, the rule the claim credits —
declines, because the next character after the comment is `)` and not
`=>`; the chain commits no attachment. -/
theorem arrow_params_rule_declines :
    handleRemainingComment goFalse ctxArrow = some ⟨false, [], []⟩ ∧
    handleCommentAfterArrowParams ctxArrow = some ⟨false, [], []⟩ :=
  ⟨by decide, by decide⟩

/-- C8 (amended): for `(a, b/*c*/) => x` the remaining chain declines and
the dangling-on-the-arrow outcome comes from the default remaining policy;
`handleCommentAfterArrowParams` fires only when `=>` directly follows the
comment, as in `(a, b) /*c*/ => x`. -/
theorem arrow_params_default_dangling :
    handleRemainingComment goFalse ctxArrow = some ⟨false, [], []⟩ ∧
    remainingDefaultPolicy ctxArrow = .dangling 1 none ∧
    handleCommentAfterArrowParams ctxArrowBefore = some ⟨true, [.dangling 1 none], []⟩ :=
  ⟨by decide, by decide, by decide⟩

/-- C9 (amended): inside a test-less switch case with a following node,
the handler routes a line comment before a block to the block's first
statement and otherwise attaches the comment dangling on the case; the
chains consult this rule only for end-of-line comments. -/
theorem switch_default_case_rule (ctx : Ctx) (e f : Nat)
    (he : ctx.enclosingNode = some e) (ht : (ctx.tree e).type_ = "SwitchCase")
    (htest : (ctx.tree e).test = none) (hf : ctx.followingNode = some f) :
    handleSwitchDefaultCaseComments ctx =
      if (ctx.tree f).type_ = "BlockStatement" ∧ isLineComment ctx.comment = true
      then (addBlockStatementFirstComment ctx.tree f).map (fun a => ⟨true, [a], []⟩)
      else some ⟨true, [.dangling e none], []⟩ := by
  simp only [handleSwitchDefaultCaseComments, he, hf]
  rw [if_neg (by simp [ht, htest])]
  split_ifs with h1 h2 <;> simp_all

/-- C9 counterexample: the very same context in which the switch-default
rule fires is declined whole by the own-line chain — the rule is consulted
only by the end-of-line chain, not for every placement class. -/
theorem switch_default_rule_not_in_ownline_chain :
    handleOwnLineComment goFalse ctxSwitchLine = some ⟨false, [], []⟩ ∧
    handleSwitchDefaultCaseComments ctxSwitchLine = some ⟨true, [.leading 4], []⟩ ∧
    handleEndOfLineComment goFalse ctxSwitchLine = some ⟨true, [.leading 4], []⟩ :=
  ⟨by decide, by decide, by decide⟩

/-- Witness for the amended C9 at `default: // c` before `{ stmt }`. -/
theorem switch_default_case_rule_witness :
    handleSwitchDefaultCaseComments ctxSwitchLine =
      (if (ctxSwitchLine.tree 3).type_ = "BlockStatement" ∧
          isLineComment ctxSwitchLine.comment = true
       then (addBlockStatementFirstComment ctxSwitchLine.tree 3).map
         (fun a => ⟨true, [a], []⟩)
       else some ⟨true, [.dangling 1 none], []⟩) ∧
    handleSwitchDefaultCaseComments ctxSwitchLine = some ⟨true, [.leading 4], []⟩ :=
  ⟨switch_default_case_rule ctxSwitchLine 1 3 (by decide) (by decide) (by decide)
     (by decide),
   by decide⟩

theorem atTypeHere_iff (cs : List Char) :
    atTypeHere cs = true ↔
      ∃ r, cs = '@' :: 't' :: 'y' :: 'p' :: 'e' :: r ∧
        (r = [] ∨ ∃ c r2, r = c :: r2 ∧ isWordChar c = false) := by
  rcases cs with _ | ⟨c1, _ | ⟨c2, _ | ⟨c3, _ | ⟨c4, _ | ⟨c5, rest⟩⟩⟩⟩⟩ <;>
    simp [atTypeHere]
  rcases rest with _ | ⟨c, r2⟩ <;> simp
  · constructor
    · rintro ⟨⟨⟨⟨h1, h2⟩, h3⟩, h4⟩, h5⟩
      exact ⟨[], ⟨h1, h2, h3, h4, h5, rfl⟩, Or.inl rfl⟩
    · rintro ⟨r, ⟨h1, h2, h3, h4, h5, hr⟩, _⟩
      exact ⟨⟨⟨⟨h1, h2⟩, h3⟩, h4⟩, h5⟩
  · constructor
    · rintro ⟨⟨⟨⟨⟨h1, h2⟩, h3⟩, h4⟩, h5⟩, hw⟩
      exact ⟨c :: r2, ⟨h1, h2, h3, h4, h5, rfl⟩, Or.inr ⟨c, ⟨r2, rfl⟩, hw⟩⟩
    · rintro ⟨r, ⟨h1, h2, h3, h4, h5, hr⟩, hrest⟩
      subst hr
      rcases hrest with hnil | ⟨c3, ⟨x, hx⟩, hw⟩
      · exact absurd hnil (by simp)
      · injection hx with hcc _
        subst hcc
        exact ⟨⟨⟨⟨⟨h1, h2⟩, h3⟩, h4⟩, h5⟩, hw⟩

theorem hasAtTypeWordBoundary_iff (cs : List Char) :
    hasAtTypeWordBoundary cs = true ↔ ∃ l r, cs = l ++ r ∧ atTypeHere r = true := by
  induction cs with
  | nil =>
    simp only [hasAtTypeWordBoundary, Bool.false_eq_true, false_iff]
    rintro ⟨l, r, heq, hr⟩
    rcases List.append_eq_nil.mp heq.symm with ⟨rfl, rfl⟩
    simp [atTypeHere] at hr
  | cons c cs ih =>
    simp only [hasAtTypeWordBoundary, Bool.or_eq_true, ih]
    constructor
    · rintro (h | ⟨l, r, heq, hr⟩)
      · exact ⟨[], c :: cs, rfl, h⟩
      · exact ⟨c :: l, r, by simp [heq], hr⟩
    · rintro ⟨l, r, heq, hr⟩
      rcases l with _ | ⟨x, l⟩
      · left
        simp only [List.nil_append] at heq
        rw [← heq] at hr
        exact hr
      · right
        injection heq with h1 h2
        exact ⟨l, r, h2, hr⟩

/-- C10: `isTypeCastComment` holds exactly for block comments whose text
starts with `*` and contains a word-boundary occurrence of `@type`; and the
end-of-line chain attaches every such comment as leading of the following
node through its first rule, before any other handler is consulted. -/
theorem type_cast_comment_rule :
    (∀ c : Comment, isTypeCastComment c = true ↔
      (isBlockComment c = true ∧ (∃ rest, c.value.data = '*' :: rest) ∧
        containsAtTypeWithBoundary c.value.data)) ∧
    (∀ (g : GlobalOptions) (ctx : Ctx) (f : Nat), ctx.followingNode = some f →
      isTypeCastComment ctx.comment = true →
      handleEndOfLineComment g ctx = some ⟨true, [.leading f], []⟩) := by
  constructor
  · intro c
    simp only [isTypeCastComment, Bool.and_eq_true, containsAtTypeWithBoundary,
      hasAtTypeWordBoundary_iff]
    constructor
    · rintro ⟨⟨hb, hstar⟩, hwb⟩
      obtain ⟨l, r, heq, hr⟩ := hwb
      obtain ⟨r2, hr2, hbound⟩ := (atTypeHere_iff r).mp hr
      refine ⟨hb, ?_, l, r2, by rw [heq, hr2], hbound⟩
      cases hd : c.value.data with
      | nil => rw [hd] at hstar; simp at hstar
      | cons x xs =>
        rw [hd] at hstar
        have hx : x = '*' := by simpa using hstar
        exact ⟨xs, by subst hx; rfl⟩
    · rintro ⟨hb, ⟨rest, hrest⟩, l, r2, heq, hbound⟩
      refine ⟨⟨hb, by simp [hrest]⟩, l, '@' :: 't' :: 'y' :: 'p' :: 'e' :: r2, heq, ?_⟩
      rw [atTypeHere_iff]
      exact ⟨r2, rfl, hbound⟩
  · intro g ctx f hf ht
    simp [handleEndOfLineComment, runChain, handleClosureTypeCastComments, hf, ht]

/-- Witness for C10 at a concrete `/** @type x */` comment. -/
theorem type_cast_comment_rule_witness :
    isTypeCastComment ctxTypeCast.comment = true ∧
    handleEndOfLineComment goFalse ctxTypeCast = some ⟨true, [.leading 5], []⟩ :=
  ⟨by decide, type_cast_comment_rule.2 goFalse ctxTypeCast 5 (by decide) (by decide)⟩
